import Mathlib

/-!
Shallow embedding of the `jerris` Java class-file parser (Rust) in Lean 4.

Source files embedded: `src/constant_pool.rs`, `src/class.rs`, `src/field.rs`,
`src/method.rs`, `src/attribute.rs`, `src/big_endian.rs`.

Modelling conventions:
* A byte stream (`std::fs::File` consumed strictly forward through
  `read_exact`) is a `List Nat`; every read normalises each byte with `% 256`,
  which encodes the `u8` value domain.
* Machine integers are `Nat` with explicit `% 2 ^ w` where overflow matters:
  the `u16` wrapping subtraction `read_u16(f)? - 1` of the source is `sub1`
  (release-build wrapping semantics).
* Fallible Rust code returns `Result`; a Rust panic (out-of-bounds slice
  indexing `pool[i]`, `unreachable!()`, `todo!()`, `Option::unwrap` on `None`)
  is the explicit result `Res.crash`.
* The recursive validator `validate_constant` is embedded with a fuel
  parameter (`validateAux`); the fuel is `Constant.rank c + 1`, and the
  theorem `validateAux_no_spin` below proves that this fuel is never
  exhausted, i.e. the source's recursion tree is always finite.  `Res.spin`
  marks fuel exhaustion and is proved unreachable.
* `eprintln!` output (stderr) is threaded through validation as a
  `List String` log, so that observable-effect claims are statable.
* `access_flags.rs` is declared in `lib.rs` but absent from the sources;
  its three `from_bits` decoders are modelled from the spec (see the
  doc comments marked `Modelled from the spec:`).
-/

namespace Jerris

/-- Result of running a piece of Rust code: normal value, typed error,
a Rust panic (`crash`), or exhaustion of the recursion fuel (`spin`,
proved unreachable below). -/
inductive Res (ε : Type) (α : Type) where
  | ok (a : α)
  | err (e : ε)
  | crash
  | spin
deriving DecidableEq, Repr

/-- List lookup returning `none` out of range; embeds Rust slice indexing
`pool[i]`, whose `none` case the callers turn into `Res.crash` (panic). -/
def listGet {α : Type} : List α → Nat → Option α
  | [], _ => none
  | x :: _, 0 => some x
  | _ :: xs, n + 1 => listGet xs n

/-- The nine-valued `MethodReferenceKind` enum of `constant_pool.rs`. -/
inductive MethodReferenceKind where
  | GetField
  | GetStatic
  | PutField
  | PutStatic
  | InvokeVirtual
  | InvokeStatic
  | InvokeSpecial
  | NewInvokeSpecial
  | InvokeInterface
deriving DecidableEq, Repr

/-- `FromPrimitive::from_u8` for `MethodReferenceKind` (discriminants 1..9). -/
def MethodReferenceKind.fromU8 : Nat → Option MethodReferenceKind
  | 1 => some .GetField
  | 2 => some .GetStatic
  | 3 => some .PutField
  | 4 => some .PutStatic
  | 5 => some .InvokeVirtual
  | 6 => some .InvokeStatic
  | 7 => some .InvokeSpecial
  | 8 => some .NewInvokeSpecial
  | 9 => some .InvokeInterface
  | _ => none

/-- The `Constant` enum of `constant_pool.rs`.  Index fields are the decoded
(already `- 1`-adjusted) `u16` values as `Nat`.  `Integer`/`Long` hold the
two's-complement bit pattern, `Float`/`Double` hold the raw IEEE-754 bits
(the source builds them with `from_bits`, so no floating-point arithmetic is
involved in any embedded operation).  `UTF8String` holds the UTF-8 bytes of
the validated Rust `String`. -/
inductive Constant where
  | Class (name_index : Nat)
  | Field (class_index : Nat) (name_and_type_index : Nat)
  | Method (class_index : Nat) (name_and_type_index : Nat)
  | InterfaceMethod (class_index : Nat) (name_and_type_index : Nat)
  | String (string_index : Nat)
  | Integer (bits : Nat)
  | Float (bits : Nat)
  | Long (bits : Nat)
  | Double (bits : Nat)
  | NameAndType (name_index : Nat) (descriptor_index : Nat)
  | UTF8String (bytes : List Nat)
  | MethodHandle (reference_kind : MethodReferenceKind) (reference_index : Nat)
  | MethodType (descriptor_index : Nat)
  | InvokeDynamic (bootstrap_method_attr_index : Nat) (name_and_type_index : Nat)
deriving DecidableEq, Repr

/-- The `ConstantPoolValidationError` enum of `constant_pool.rs`. -/
inductive ConstantPoolValidationError where
  | ClassWithInvalidNameIndex
  | MethodWithInvalidClassIndex
  | MethodWithInvalidNameAndTypeIndex
  | FieldWithInvalidClassIndex
  | FieldWithInvalidNameAndTypeIndex
  | InterfaceMethodWithInvalidClassIndex
  | InterfaceMethodWithInvalidNameAndTypeIndex
  | StringWithInvalidUTF8Index
  | NameAndTypeWithInvalidNameIndex
  | NameAndTypeWithInvalidDescriptorIndex
  | InvokeDynamicWithInvalidNameAndType
  | InvokeDynamicWithInvalidBootstrapMethodIndex
  | MethodTypeWithInvalidDescriptorIndex
  | InvalidMethodHandle
deriving DecidableEq, Repr

/-- The `ParseClassError` enum of `class.rs` (payloads that carry only
diagnostic detail are dropped). -/
inductive ParseClassError where
  | IoError
  | InvalidMagicNumber
  | InvalidUTF8Constant
  | InvalidMethodHandleReferenceKind
  | ConstantPoolValidationError (e : ConstantPoolValidationError)
  | FieldParseError
  | MethodParseError
deriving DecidableEq, Repr

/-- `read_u8` of `class.rs`: one byte via `read_exact`, `IoError` when the
stream is exhausted. -/
def readU8 : List Nat → Res ParseClassError (Nat × List Nat)
  | [] => .err .IoError
  | b :: r => .ok (b % 256, r)

/-- `read_u16` of `class.rs`: two bytes, big-endian (`parse_big_endian` of
`big_endian.rs`: `(b0 << 8) | b1`). -/
def readU16 : List Nat → Res ParseClassError (Nat × List Nat)
  | b0 :: b1 :: r => .ok ((b0 % 256) * 256 + b1 % 256, r)
  | _ => .err .IoError

/-- `read_u32` of `class.rs`: four bytes, big-endian. -/
def readU32 : List Nat → Res ParseClassError (Nat × List Nat)
  | b0 :: b1 :: b2 :: b3 :: r =>
      .ok ((b0 % 256) * 2 ^ 24 + (b1 % 256) * 2 ^ 16 + (b2 % 256) * 256 + b3 % 256, r)
  | _ => .err .IoError

/-- `read_n::<4>` of `class.rs` (used for the version bytes). -/
def readN4 : List Nat → Res ParseClassError ((Nat × Nat × Nat × Nat) × List Nat)
  | b0 :: b1 :: b2 :: b3 :: r => .ok ((b0 % 256, b1 % 256, b2 % 256, b3 % 256), r)
  | _ => .err .IoError

/-- `read_n_dyn` of `class.rs`: exactly `n` bytes or `IoError`; `read_exact`
never returns zero-filled or partial data on a short stream. -/
def readNDyn (n : Nat) (s : List Nat) : Res ParseClassError (List Nat × List Nat) :=
  if n ≤ s.length then .ok ((s.take n).map (· % 256), s.drop n) else .err .IoError

/-- The `u16` wrapping subtraction `read_u16(f)? - 1` applied by
`parse_constant` (and to the pool count in `Class::from_file`):
release-build two's-complement wrap modulo `2 ^ 16`. -/
def sub1 (v : Nat) : Nat := (v + 65535) % 65536

/-- UTF-8 validity as enforced by Rust's `String::from_utf8`
(RFC 3629: continuation-byte ranges, no overlong forms, no surrogates,
nothing above U+10FFFF). -/
def isValidUtf8 : List Nat → Bool
  | [] => true
  | b :: r =>
    if b < 0x80 then isValidUtf8 r
    else if b < 0xC2 then false
    else if b < 0xE0 then
      match r with
      | b1 :: r1 => if 0x80 ≤ b1 && b1 < 0xC0 then isValidUtf8 r1 else false
      | [] => false
    else if b < 0xF0 then
      match r with
      | b1 :: b2 :: r2 =>
        let lo1 := if b = 0xE0 then 0xA0 else 0x80
        let hi1 := if b = 0xED then 0xA0 else 0xC0
        if (lo1 ≤ b1 && b1 < hi1) && (0x80 ≤ b2 && b2 < 0xC0) then isValidUtf8 r2 else false
      | _ => false
    else if b < 0xF5 then
      match r with
      | b1 :: b2 :: b3 :: r3 =>
        let lo1 := if b = 0xF0 then 0x90 else 0x80
        let hi1 := if b = 0xF4 then 0x90 else 0xC0
        if (lo1 ≤ b1 && b1 < hi1) && (0x80 ≤ b2 && b2 < 0xC0) && (0x80 ≤ b3 && b3 < 0xC0)
        then isValidUtf8 r3 else false
      | _ => false
    else false

/-- `parse_constant` of `constant_pool.rs`: tag-byte dispatch over the
recognized tags {1,3,4,5,6,7,8,9,10,11,12,15,16,18}; the source's final
arm is `todo!()`, embedded as `Res.crash`. -/
def parseConstant (s0 : List Nat) : Res ParseClassError (Constant × List Nat) :=
  match readU8 s0 with
  | .err e => .err e
  | .crash => .crash
  | .spin => .spin
  | .ok (tag, s) =>
    match tag with
    | 1 =>
      match readU16 s with
      | .err e => .err e
      | .crash => .crash
      | .spin => .spin
      | .ok (len, s) =>
        match readNDyn len s with
        | .err e => .err e
        | .crash => .crash
        | .spin => .spin
        | .ok (bytes, s) =>
          if isValidUtf8 bytes then .ok (.UTF8String bytes, s) else .err .InvalidUTF8Constant
    | 15 =>
      match readU8 s with
      | .err e => .err e
      | .crash => .crash
      | .spin => .spin
      | .ok (k, s) =>
        match MethodReferenceKind.fromU8 k with
        | none => .err .InvalidMethodHandleReferenceKind
        | some rk =>
          match readU16 s with
          | .err e => .err e
          | .crash => .crash
          | .spin => .spin
          | .ok (v, s) => .ok (.MethodHandle rk (sub1 v), s)
    | 16 =>
      match readU16 s with
      | .err e => .err e
      | .crash => .crash
      | .spin => .spin
      | .ok (v, s) => .ok (.MethodType (sub1 v), s)
    | 18 =>
      match readU16 s with
      | .err e => .err e
      | .crash => .crash
      | .spin => .spin
      | .ok (v1, s) =>
        match readU16 s with
        | .err e => .err e
        | .crash => .crash
        | .spin => .spin
        | .ok (v2, s) => .ok (.InvokeDynamic (sub1 v1) (sub1 v2), s)
    | 12 =>
      match readU16 s with
      | .err e => .err e
      | .crash => .crash
      | .spin => .spin
      | .ok (v1, s) =>
        match readU16 s with
        | .err e => .err e
        | .crash => .crash
        | .spin => .spin
        | .ok (v2, s) => .ok (.NameAndType (sub1 v1) (sub1 v2), s)
    | 3 =>
      match readU32 s with
      | .err e => .err e
      | .crash => .crash
      | .spin => .spin
      | .ok (v, s) => .ok (.Integer v, s)
    | 4 =>
      match readU32 s with
      | .err e => .err e
      | .crash => .crash
      | .spin => .spin
      | .ok (v, s) => .ok (.Float v, s)
    | 5 =>
      match readU32 s with
      | .err e => .err e
      | .crash => .crash
      | .spin => .spin
      | .ok (hi, s) =>
        match readU32 s with
        | .err e => .err e
        | .crash => .crash
        | .spin => .spin
        | .ok (lo, s) => .ok (.Long (hi * 2 ^ 32 + lo), s)
    | 6 =>
      match readU32 s with
      | .err e => .err e
      | .crash => .crash
      | .spin => .spin
      | .ok (hi, s) =>
        match readU32 s with
        | .err e => .err e
        | .crash => .crash
        | .spin => .spin
        | .ok (lo, s) => .ok (.Double (hi * 2 ^ 32 + lo), s)
    | 7 =>
      match readU16 s with
      | .err e => .err e
      | .crash => .crash
      | .spin => .spin
      | .ok (v, s) => .ok (.Class (sub1 v), s)
    | 8 =>
      match readU16 s with
      | .err e => .err e
      | .crash => .crash
      | .spin => .spin
      | .ok (v, s) => .ok (.String (sub1 v), s)
    | 9 =>
      match readU16 s with
      | .err e => .err e
      | .crash => .crash
      | .spin => .spin
      | .ok (v1, s) =>
        match readU16 s with
        | .err e => .err e
        | .crash => .crash
        | .spin => .spin
        | .ok (v2, s) => .ok (.Field (sub1 v1) (sub1 v2), s)
    | 10 =>
      match readU16 s with
      | .err e => .err e
      | .crash => .crash
      | .spin => .spin
      | .ok (v1, s) =>
        match readU16 s with
        | .err e => .err e
        | .crash => .crash
        | .spin => .spin
        | .ok (v2, s) => .ok (.Method (sub1 v1) (sub1 v2), s)
    | 11 =>
      match readU16 s with
      | .err e => .err e
      | .crash => .crash
      | .spin => .spin
      | .ok (v1, s) =>
        match readU16 s with
        | .err e => .err e
        | .crash => .crash
        | .spin => .spin
        | .ok (v2, s) => .ok (.InterfaceMethod (sub1 v1) (sub1 v2), s)
    | _ => .crash

/-- Rank of a constant variant in the cross-reference graph of §4.3.
Every recursive call of `validate_constant` is guarded by a `matches!` on
the referent's variant, and each such referent has rank exactly one less
than the referring variant, so the recursion depth is bounded by the rank. -/
def Constant.rank : Constant → Nat
  | .UTF8String _ => 0
  | .Integer _ => 0
  | .Float _ => 0
  | .Long _ => 0
  | .Double _ => 0
  | .Class _ => 1
  | .String _ => 1
  | .NameAndType _ _ => 1
  | .MethodType _ => 1
  | .Field _ _ => 2
  | .Method _ _ => 2
  | .InterfaceMethod _ _ => 2
  | .InvokeDynamic _ _ => 2
  | .MethodHandle _ _ => 3

/-- The diagnostic line printed by `eprintln!` in the `InvokeDynamic`
branch of `validate_constant`. -/
def fixmeMsg : String := "FIXME!: Implement bootstrap method attr index check"

/-- The UTF-8 bytes of the literal `"<init>"` compared against by the
`NewInvokeSpecial` branch of `validate_constant`. -/
def initName : List Nat := [60, 105, 110, 105, 116, 62]

/-- Fuel-indexed embedding of `validate_constant` of `constant_pool.rs`.
The first component is the outcome (`ok` = `Ok(())`, `err` = the typed
validation error, `crash` = a Rust panic from out-of-range `pool[i]`
indexing or an `unreachable!()` arm); the second component is the list of
lines the call printed to stderr.  `spin` is returned only on fuel
exhaustion and `validateAux_no_spin` proves it never arises for the fuel
`Constant.rank c + 1` used by `validateConstant`. -/
def validateAux : Nat → Constant → List Constant →
    Res ConstantPoolValidationError Unit × List String
  | 0, _, _ => (.spin, [])
  | fuel + 1, c, pool =>
    match c with
    | .Class name_index =>
      match listGet pool name_index with
      | none => (.crash, [])
      | some (.UTF8String s) =>
        let (r, l) := validateAux fuel (.UTF8String s) pool
        match r with
        | .ok _ => (.ok (), l)
        | .err e => (.err e, l)
        | .crash => (.crash, l)
        | .spin => (.spin, l)
      | some _ => (.err .ClassWithInvalidNameIndex, [])
    | .Method class_index name_and_type_index =>
      match listGet pool class_index with
      | none => (.crash, [])
      | some (.Class a) =>
        let (r, l) := validateAux fuel (.Class a) pool
        match r with
        | .ok _ =>
          match listGet pool name_and_type_index with
          | none => (.crash, l)
          | some (.NameAndType x y) =>
            let (r2, l2) := validateAux fuel (.NameAndType x y) pool
            match r2 with
            | .ok _ => (.ok (), l ++ l2)
            | .err e => (.err e, l ++ l2)
            | .crash => (.crash, l ++ l2)
            | .spin => (.spin, l ++ l2)
          | some _ => (.err .MethodWithInvalidNameAndTypeIndex, l)
        | .err e => (.err e, l)
        | .crash => (.crash, l)
        | .spin => (.spin, l)
      | some _ => (.err .MethodWithInvalidClassIndex, [])
    | .Field class_index name_and_type_index =>
      match listGet pool class_index with
      | none => (.crash, [])
      | some (.Class a) =>
        let (r, l) := validateAux fuel (.Class a) pool
        match r with
        | .ok _ =>
          match listGet pool name_and_type_index with
          | none => (.crash, l)
          | some (.NameAndType x y) =>
            let (r2, l2) := validateAux fuel (.NameAndType x y) pool
            match r2 with
            | .ok _ => (.ok (), l ++ l2)
            | .err e => (.err e, l ++ l2)
            | .crash => (.crash, l ++ l2)
            | .spin => (.spin, l ++ l2)
          | some _ => (.err .FieldWithInvalidNameAndTypeIndex, l)
        | .err e => (.err e, l)
        | .crash => (.crash, l)
        | .spin => (.spin, l)
      | some _ => (.err .FieldWithInvalidClassIndex, [])
    | .InterfaceMethod class_index name_and_type_index =>
      match listGet pool class_index with
      | none => (.crash, [])
      | some (.Class a) =>
        let (r, l) := validateAux fuel (.Class a) pool
        match r with
        | .ok _ =>
          match listGet pool name_and_type_index with
          | none => (.crash, l)
          | some (.NameAndType x y) =>
            let (r2, l2) := validateAux fuel (.NameAndType x y) pool
            match r2 with
            | .ok _ => (.ok (), l ++ l2)
            | .err e => (.err e, l ++ l2)
            | .crash => (.crash, l ++ l2)
            | .spin => (.spin, l ++ l2)
          | some _ => (.err .InterfaceMethodWithInvalidNameAndTypeIndex, l)
        | .err e => (.err e, l)
        | .crash => (.crash, l)
        | .spin => (.spin, l)
      | some _ => (.err .InterfaceMethodWithInvalidClassIndex, [])
    | .Integer _ => (.ok (), [])
    | .Long _ => (.ok (), [])
    | .Float _ => (.ok (), [])
    | .Double _ => (.ok (), [])
    | .UTF8String _ => (.ok (), [])
    | .String string_index =>
      match listGet pool string_index with
      | none => (.crash, [])
      | some (.UTF8String s) =>
        let (r, l) := validateAux fuel (.UTF8String s) pool
        match r with
        | .ok _ => (.ok (), l)
        | .err e => (.err e, l)
        | .crash => (.crash, l)
        | .spin => (.spin, l)
      | some _ => (.err .StringWithInvalidUTF8Index, [])
    | .NameAndType name_index descriptor_index =>
      match listGet pool name_index with
      | none => (.crash, [])
      | some (.UTF8String s) =>
        let (r, l) := validateAux fuel (.UTF8String s) pool
        match r with
        | .ok _ =>
          match listGet pool descriptor_index with
          | none => (.crash, l)
          | some (.UTF8String t) =>
            let (r2, l2) := validateAux fuel (.UTF8String t) pool
            match r2 with
            | .ok _ => (.ok (), l ++ l2)
            | .err e => (.err e, l ++ l2)
            | .crash => (.crash, l ++ l2)
            | .spin => (.spin, l ++ l2)
          | some _ => (.err .NameAndTypeWithInvalidDescriptorIndex, l)
        | .err e => (.err e, l)
        | .crash => (.crash, l)
        | .spin => (.spin, l)
      | some _ => (.err .NameAndTypeWithInvalidNameIndex, [])
    | .InvokeDynamic _ name_and_type_index =>
      match listGet pool name_and_type_index with
      | none => (.crash, [])
      | some (.NameAndType x y) =>
        let (r, l) := validateAux fuel (.NameAndType x y) pool
        match r with
        | .ok _ => (.ok (), l ++ [fixmeMsg])
        | .err e => (.err e, l)
        | .crash => (.crash, l)
        | .spin => (.spin, l)
      | some _ => (.err .InvokeDynamicWithInvalidNameAndType, [])
    | .MethodType descriptor_index =>
      match listGet pool descriptor_index with
      | none => (.crash, [])
      | some (.UTF8String s) =>
        let (r, l) := validateAux fuel (.UTF8String s) pool
        match r with
        | .ok _ => (.ok (), l)
        | .err e => (.err e, l)
        | .crash => (.crash, l)
        | .spin => (.spin, l)
      | some _ => (.err .MethodTypeWithInvalidDescriptorIndex, [])
    | .MethodHandle reference_kind reference_index =>
      match reference_kind with
      | .GetField | .GetStatic | .PutField | .PutStatic =>
        match listGet pool reference_index with
        | none => (.crash, [])
        | some (.Field a b) =>
          let (r, l) := validateAux fuel (.Field a b) pool
          match r with
          | .ok _ => (.ok (), l)
          | .err e => (.err e, l)
          | .crash => (.crash, l)
          | .spin => (.spin, l)
        | some _ => (.err .InvalidMethodHandle, [])
      | .InvokeSpecial | .InvokeVirtual | .InvokeStatic =>
        match listGet pool reference_index with
        | none => (.crash, [])
        | some (.Method a b) =>
          let (r, l) := validateAux fuel (.Method a b) pool
          match r with
          | .ok _ => (.ok (), l)
          | .err e => (.err e, l)
          | .crash => (.crash, l)
          | .spin => (.spin, l)
        | some _ => (.err .InvalidMethodHandle, [])
      | .InvokeInterface =>
        match listGet pool reference_index with
        | none => (.crash, [])
        | some (.InterfaceMethod a b) =>
          let (r, l) := validateAux fuel (.InterfaceMethod a b) pool
          match r with
          | .ok _ => (.ok (), l)
          | .err e => (.err e, l)
          | .crash => (.crash, l)
          | .spin => (.spin, l)
        | some _ => (.err .InvalidMethodHandle, [])
      | .NewInvokeSpecial =>
        match listGet pool reference_index with
        | none => (.crash, [])
        | some (.Method a b) =>
          let (r, l) := validateAux fuel (.Method a b) pool
          match r with
          | .ok _ =>
            match listGet pool b with
            | none => (.crash, l)
            | some (.NameAndType x _) =>
              match listGet pool x with
              | none => (.crash, l)
              | some (.UTF8String nm) =>
                if nm = initName then (.ok (), l) else (.err .InvalidMethodHandle, l)
              | some _ => (.crash, l)
            | some _ => (.crash, l)
          | .err e => (.err e, l)
          | .crash => (.crash, l)
          | .spin => (.spin, l)
        | some _ => (.err .InvalidMethodHandle, [])

/-- `validate_constant` of `constant_pool.rs`.  The fuel `c.rank + 1` is
exactly the source's recursion depth bound (`validateAux_no_spin`), so this
computes the same outcome and stderr output as the unbounded source
recursion. -/
def validateConstant (c : Constant) (pool : List Constant) :
    Res ConstantPoolValidationError Unit × List String :=
  validateAux (c.rank + 1) c pool

/-- The `for constant in constant_pool` loop of `validate_constant_pool`,
with the error mapped through `ParseClassError::ConstantPoolValidationError`
and stderr output accumulated in order. -/
def validatePoolGo (entries : List Constant) (pool : List Constant) :
    Res ParseClassError Unit × List String :=
  match entries with
  | [] => (.ok (), [])
  | c :: rest =>
    let (r, l) := validateConstant c pool
    match r with
    | .ok _ =>
      let (r2, l2) := validatePoolGo rest pool
      (r2, l ++ l2)
    | .err e => (.err (.ConstantPoolValidationError e), l)
    | .crash => (.crash, l)
    | .spin => (.spin, l)

/-- `validate_constant_pool` of `constant_pool.rs`. -/
def validateConstantPool (pool : List Constant) :
    Res ParseClassError Unit × List String :=
  validatePoolGo pool pool

/-- Modelled from the spec: `access_flags.rs` is declared in `lib.rs` but is
not among the provided sources.  Per §4.4 step 5 the class flag decode is an
exact-match decode over the recognized class-flag vocabulary (the JVM se7
class flags `0x0001, 0x0010, 0x0020, 0x0200, 0x0400, 0x1000, 0x2000,
0x4000`), so `from_bits` (bitflags style) returns the word iff no bit
outside that vocabulary is set. -/
def ClassAccessFlags.from_bits (v : Nat) : Option Nat :=
  if v &&& 0x89CE = 0 then some v else none

/-- Modelled from the spec: field-flag vocabulary (`access_flags.rs`
missing); exact-match decode over the JVM se7 field flags
`0x0001, 0x0002, 0x0004, 0x0008, 0x0010, 0x0040, 0x0080, 0x1000, 0x4000`. -/
def FieldAccessFlags.from_bits (v : Nat) : Option Nat :=
  if v &&& 0xAF20 = 0 then some v else none

/-- Modelled from the spec: method-flag vocabulary (`access_flags.rs`
missing); exact-match decode over the JVM se7 method flags
`0x0001 .. 0x0010, 0x0020, 0x0040, 0x0080, 0x0100, 0x0400, 0x0800,
0x1000`. -/
def MethodAccessFlags.from_bits (v : Nat) : Option Nat :=
  if v &&& 0xE200 = 0 then some v else none

/-- The `JavaVersion` struct of `class.rs` (`minor` first, as in
`JavaVersion::parse`). -/
structure JavaVersion where
  minor : Nat
  major : Nat
deriving DecidableEq, Repr

/-- The `Attribute` struct of `attribute.rs`. -/
structure Attribute where
  attribute_name_index : Nat
  info : List Nat
deriving DecidableEq, Repr

/-- The `Field` struct of `field.rs` (flags held as the raw decoded word). -/
structure Field where
  access_flags : Nat
  name_index : Nat
  descriptor_index : Nat
  attributes : List Attribute
deriving DecidableEq, Repr

/-- The `Method` struct of `method.rs`. -/
structure Method where
  access_flags : Nat
  name_index : Nat
  descriptor_index : Nat
  attributes : List Attribute
deriving DecidableEq, Repr

/-- The `Class` struct of `class.rs`; interface names are kept as the UTF-8
byte lists of the resolved strings. -/
structure ClassFile where
  java_version : JavaVersion
  constant_pool : List Constant
  access_flags : Nat
  this_class : Nat
  super_class : Nat
  interfaces : List (List Nat)
  fields : List Field
  methods : List Method
  attributes : List Attribute
deriving DecidableEq, Repr

/-- The byte-reading loop of `parse_attribute` (`attr_len` single-byte
reads). -/
def readBytes (n : Nat) (s : List Nat) : Res ParseClassError (List Nat × List Nat) :=
  match n with
  | 0 => .ok ([], s)
  | n + 1 =>
    match readU8 s with
    | .err e => .err e
    | .crash => .crash
    | .spin => .spin
    | .ok (b, s) =>
      match readBytes n s with
      | .err e => .err e
      | .crash => .crash
      | .spin => .spin
      | .ok (bs, s) => .ok (b :: bs, s)

/-- `parse_attribute` of `attribute.rs`. -/
def parseAttribute (s : List Nat) : Res ParseClassError (Attribute × List Nat) :=
  match readU16 s with
  | .err e => .err e
  | .crash => .crash
  | .spin => .spin
  | .ok (attribute_name_index, s) =>
    match readU32 s with
    | .err e => .err e
    | .crash => .crash
    | .spin => .spin
    | .ok (attr_len, s) =>
      match readBytes attr_len s with
      | .err e => .err e
      | .crash => .crash
      | .spin => .spin
      | .ok (info, s) => .ok (⟨attribute_name_index, info⟩, s)

/-- The counted loop of `parse_attributes`. -/
def parseAttributesGo (n : Nat) (s : List Nat) :
    Res ParseClassError (List Attribute × List Nat) :=
  match n with
  | 0 => .ok ([], s)
  | n + 1 =>
    match parseAttribute s with
    | .err e => .err e
    | .crash => .crash
    | .spin => .spin
    | .ok (a, s) =>
      match parseAttributesGo n s with
      | .err e => .err e
      | .crash => .crash
      | .spin => .spin
      | .ok (as_, s) => .ok (a :: as_, s)

/-- `parse_attributes` of `attribute.rs`. -/
def parseAttributes (s : List Nat) : Res ParseClassError (List Attribute × List Nat) :=
  match readU16 s with
  | .err e => .err e
  | .crash => .crash
  | .spin => .spin
  | .ok (len, s) => parseAttributesGo len s

/-- `parse_field` of `field.rs`. -/
def parseField (s : List Nat) : Res ParseClassError (Field × List Nat) :=
  match readU16 s with
  | .err e => .err e
  | .crash => .crash
  | .spin => .spin
  | .ok (w, s) =>
    match FieldAccessFlags.from_bits w with
    | none => .err .FieldParseError
    | some access_flags =>
      match readU16 s with
      | .err e => .err e
      | .crash => .crash
      | .spin => .spin
      | .ok (name_index, s) =>
        match readU16 s with
        | .err e => .err e
        | .crash => .crash
        | .spin => .spin
        | .ok (descriptor_index, s) =>
          match parseAttributes s with
          | .err e => .err e
          | .crash => .crash
          | .spin => .spin
          | .ok (attributes, s) =>
            .ok (⟨access_flags, name_index, descriptor_index, attributes⟩, s)

/-- The counted loop of `parse_fields`. -/
def parseFieldsGo (n : Nat) (s : List Nat) : Res ParseClassError (List Field × List Nat) :=
  match n with
  | 0 => .ok ([], s)
  | n + 1 =>
    match parseField s with
    | .err e => .err e
    | .crash => .crash
    | .spin => .spin
    | .ok (f, s) =>
      match parseFieldsGo n s with
      | .err e => .err e
      | .crash => .crash
      | .spin => .spin
      | .ok (fs, s) => .ok (f :: fs, s)

/-- `parse_fields` of `field.rs`. -/
def parseFields (s : List Nat) : Res ParseClassError (List Field × List Nat) :=
  match readU16 s with
  | .err e => .err e
  | .crash => .crash
  | .spin => .spin
  | .ok (len, s) => parseFieldsGo len s

/-- `parse_method` of `method.rs`. -/
def parseMethod (s : List Nat) : Res ParseClassError (Method × List Nat) :=
  match readU16 s with
  | .err e => .err e
  | .crash => .crash
  | .spin => .spin
  | .ok (w, s) =>
    match MethodAccessFlags.from_bits w with
    | none => .err .MethodParseError
    | some access_flags =>
      match readU16 s with
      | .err e => .err e
      | .crash => .crash
      | .spin => .spin
      | .ok (name_index, s) =>
        match readU16 s with
        | .err e => .err e
        | .crash => .crash
        | .spin => .spin
        | .ok (descriptor_index, s) =>
          match parseAttributes s with
          | .err e => .err e
          | .crash => .crash
          | .spin => .spin
          | .ok (attributes, s) =>
            .ok (⟨access_flags, name_index, descriptor_index, attributes⟩, s)

/-- The counted loop of `parse_methods`. -/
def parseMethodsGo (n : Nat) (s : List Nat) : Res ParseClassError (List Method × List Nat) :=
  match n with
  | 0 => .ok ([], s)
  | n + 1 =>
    match parseMethod s with
    | .err e => .err e
    | .crash => .crash
    | .spin => .spin
    | .ok (m, s) =>
      match parseMethodsGo n s with
      | .err e => .err e
      | .crash => .crash
      | .spin => .spin
      | .ok (ms, s) => .ok (m :: ms, s)

/-- `parse_methods` of `method.rs`. -/
def parseMethods (s : List Nat) : Res ParseClassError (List Method × List Nat) :=
  match readU16 s with
  | .err e => .err e
  | .crash => .crash
  | .spin => .spin
  | .ok (len, s) => parseMethodsGo len s

/-- The `for _ in 0..constant_pool_len` decode loop of `Class::from_file`. -/
def parseConstants (n : Nat) (s : List Nat) :
    Res ParseClassError (List Constant × List Nat) :=
  match n with
  | 0 => .ok ([], s)
  | n + 1 =>
    match parseConstant s with
    | .err e => .err e
    | .crash => .crash
    | .spin => .spin
    | .ok (c, s) =>
      match parseConstants n s with
      | .err e => .err e
      | .crash => .crash
      | .spin => .spin
      | .ok (cs, s) => .ok (c :: cs, s)

/-- The interface-resolution loop of `get_interfaces` of `class.rs`.  The
raw `u16` class index is used as read (no `- 1`); `constant_pool[idx]` is
panicking slice indexing and both mismatch arms of the source are
`unreachable!()`, all embedded as `Res.crash`. -/
def getInterfacesGo (n : Nat) (s : List Nat) (pool : List Constant) :
    Res ParseClassError (List (List Nat) × List Nat) :=
  match n with
  | 0 => .ok ([], s)
  | n + 1 =>
    match readU16 s with
    | .err e => .err e
    | .crash => .crash
    | .spin => .spin
    | .ok (class_index, s) =>
      match listGet pool class_index with
      | none => .crash
      | some (.Class name_index) =>
        match listGet pool name_index with
        | none => .crash
        | some (.UTF8String class_name) =>
          match getInterfacesGo n s pool with
          | .err e => .err e
          | .crash => .crash
          | .spin => .spin
          | .ok (rest, s) => .ok (class_name :: rest, s)
        | some _ => .crash
      | some _ => .crash

/-- `get_interfaces` of `class.rs` (its `io::Error` results surface as
`ParseClassError::IoError` via `io_err` at the call site). -/
def getInterfaces (s : List Nat) (pool : List Constant) :
    Res ParseClassError (List (List Nat) × List Nat) :=
  match readU16 s with
  | .err e => .err e
  | .crash => .crash
  | .spin => .spin
  | .ok (len, s) => getInterfacesGo len s pool

/-- `Class::from_file` of `class.rs`, on the byte stream of the opened
file.  The `.unwrap()` on `ClassAccessFlags::from_bits` is embedded as
`Res.crash` on `none`; the stderr output of validation is process output,
not part of the returned value, and is dropped here. -/
def fromFile (s : List Nat) : Res ParseClassError ClassFile :=
  match readU32 s with
  | .err e => .err e
  | .crash => .crash
  | .spin => .spin
  | .ok (magic, s) =>
    if magic ≠ 0xCAFEBABE then .err .InvalidMagicNumber
    else
      match readN4 s with
      | .err e => .err e
      | .crash => .crash
      | .spin => .spin
      | .ok ((b0, b1, b2, b3), s) =>
        let java_version : JavaVersion := ⟨b0 * 256 + b1, b2 * 256 + b3⟩
        match readU16 s with
        | .err e => .err e
        | .crash => .crash
        | .spin => .spin
        | .ok (cnt, s) =>
          let constant_pool_len := sub1 cnt
          match parseConstants constant_pool_len s with
          | .err e => .err e
          | .crash => .crash
          | .spin => .spin
          | .ok (constant_pool, s) =>
            match (validateConstantPool constant_pool).1 with
            | .err e => .err e
            | .crash => .crash
            | .spin => .spin
            | .ok _ =>
              match readU16 s with
              | .err e => .err e
              | .crash => .crash
              | .spin => .spin
              | .ok (w, s) =>
                match ClassAccessFlags.from_bits w with
                | none => .crash
                | some access_flags =>
                  match readU16 s with
                  | .err e => .err e
                  | .crash => .crash
                  | .spin => .spin
                  | .ok (this_class, s) =>
                    match readU16 s with
                    | .err e => .err e
                    | .crash => .crash
                    | .spin => .spin
                    | .ok (super_class, s) =>
                      match getInterfaces s constant_pool with
                      | .err e => .err e
                      | .crash => .crash
                      | .spin => .spin
                      | .ok (interfaces, s) =>
                        match parseFields s with
                        | .err e => .err e
                        | .crash => .crash
                        | .spin => .spin
                        | .ok (fields, s) =>
                          match parseMethods s with
                          | .err e => .err e
                          | .crash => .crash
                          | .spin => .spin
                          | .ok (methods, s) =>
                            match parseAttributes s with
                            | .err e => .err e
                            | .crash => .crash
                            | .spin => .spin
                            | .ok (attributes, _) =>
                              .ok ⟨java_version, constant_pool, access_flags,
                                   this_class, super_class, interfaces,
                                   fields, methods, attributes⟩

/-- Every pool-reference index field of a constant is below `n`
(the pool length); these are exactly the indices `validate_constant`
feeds to `pool[i]`. -/
def Constant.idxOk (c : Constant) (n : Nat) : Bool :=
  match c with
  | .Class i => decide (i < n)
  | .Field a b => decide (a < n) && decide (b < n)
  | .Method a b => decide (a < n) && decide (b < n)
  | .InterfaceMethod a b => decide (a < n) && decide (b < n)
  | .String i => decide (i < n)
  | .Integer _ => true
  | .Float _ => true
  | .Long _ => true
  | .Double _ => true
  | .NameAndType a b => decide (a < n) && decide (b < n)
  | .UTF8String _ => true
  | .MethodHandle _ i => decide (i < n)
  | .MethodType i => decide (i < n)
  | .InvokeDynamic _ b => decide (b < n)

/-- Every entry of the pool has all its pool-reference index fields in
range. -/
def poolOk (pool : List Constant) : Bool :=
  pool.all (fun c => c.idxOk pool.length)

/-- Observable state visible to a caller of `validate_constant_pool`: the
(borrowed) pool and the process stderr stream. -/
structure VMState where
  pool : List Constant
  output : List String
deriving DecidableEq, Repr

/-- One run of `validate_constant_pool` as a state transformer: the pool is
only read (shared borrow), and the lines printed by `eprintln!` are appended
to stderr. -/
def runValidate (st : VMState) : Res ParseClassError Unit × VMState :=
  let (r, l) := validateConstantPool st.pool
  (r, ⟨st.pool, st.output ++ l⟩)

theorem listGet_mem {α : Type} {l : List α} {i : Nat} {x : α}
    (h : listGet l i = some x) : x ∈ l := by
  induction l generalizing i with
  | nil => simp [listGet] at h
  | cons a t ih =>
    cases i with
    | zero => simp [listGet] at h; simp [h]
    | succ j => exact List.mem_cons_of_mem a (ih h)

theorem listGet_of_lt {α : Type} {l : List α} {i : Nat}
    (h : i < l.length) : ∃ x, listGet l i = some x := by
  induction l generalizing i with
  | nil => simp at h
  | cons a t ih =>
    cases i with
    | zero => exact ⟨a, rfl⟩
    | succ j => exact ih (by simpa using h)

theorem nat_ok_inv {f a b : Nat} {pool : List Constant}
    (h : (validateAux f (.NameAndType a b) pool).1 = .ok ()) :
    ∃ s, listGet pool a = some (.UTF8String s) ∧
      ∃ t, listGet pool b = some (.UTF8String t) := by
  cases f with
  | zero => simp [validateAux] at h
  | succ f =>
    cases hg : listGet pool a with
    | none => simp [validateAux, hg] at h
    | some c' =>
      cases c' <;> simp only [validateAux, hg] at h <;> try exact absurd h (by simp)
      case UTF8String s =>
        rcases hv : validateAux f (.UTF8String s) pool with ⟨r, l⟩
        simp only [hv] at h
        cases r with
        | ok u =>
          cases hb : listGet pool b with
          | none => simp [hb] at h
          | some c'' =>
            cases c'' <;> simp only [hb] at h <;> try exact absurd h (by simp)
            case UTF8String t => exact ⟨s, rfl, t, rfl⟩
        | err e => simp at h
        | crash => simp at h
        | spin => simp at h

theorem method_ok_inv {f a b : Nat} {pool : List Constant}
    (h : (validateAux f (.Method a b) pool).1 = .ok ()) :
    ∃ x y, listGet pool b = some (.NameAndType x y) ∧
      ∃ s, listGet pool x = some (.UTF8String s) := by
  cases f with
  | zero => simp [validateAux] at h
  | succ f =>
    cases hg : listGet pool a with
    | none => simp [validateAux, hg] at h
    | some c' =>
      cases c' <;> simp only [validateAux, hg] at h <;> try exact absurd h (by simp)
      case Class n =>
        rcases hv : validateAux f (.Class n) pool with ⟨r, l⟩
        simp only [hv] at h
        cases r with
        | ok u =>
          cases hb : listGet pool b with
          | none => simp [hb] at h
          | some c'' =>
            cases c'' <;> simp only [hb] at h <;> try exact absurd h (by simp)
            case NameAndType x y =>
              rcases hv2 : validateAux f (.NameAndType x y) pool with ⟨r2, l2⟩
              simp only [hv2] at h
              cases r2 <;> simp at h
              rcases nat_ok_inv (show (validateAux f (.NameAndType x y) pool).1 = .ok ()
                from by rw [hv2]) with ⟨s, hs, _⟩
              exact ⟨x, y, rfl, s, hs⟩
        | err e => simp at h
        | crash => simp at h
        | spin => simp at h

theorem validateAux_no_spin :
    ∀ (f : Nat) (c : Constant) (pool : List Constant),
      c.rank < f → (validateAux f c pool).1 ≠ .spin := by
  intro f
  induction f with
  | zero => intro c pool h; exact absurd h (Nat.not_lt_zero _)
  | succ f ih =>
    intro c pool hr
    cases c with
    | Integer v => simp [validateAux]
    | Float v => simp [validateAux]
    | Long v => simp [validateAux]
    | Double v => simp [validateAux]
    | UTF8String s => simp [validateAux]
    | Class ni =>
      have hf : 0 < f := by simp [Constant.rank] at hr; omega
      cases hg : listGet pool ni with
      | none => simp [validateAux, hg]
      | some c' =>
        cases c' <;> simp only [validateAux, hg] <;> try simp
        case UTF8String s =>
          rcases hv : validateAux f (.UTF8String s) pool with ⟨r, l⟩
          have hns : r ≠ .spin := by
            have := ih (.UTF8String s) pool (by simpa [Constant.rank] using hf)
            rw [hv] at this; exact this
          simp only [hv]
          cases r with
          | ok u => simp
          | err e => simp
          | crash => simp
          | spin => exact absurd rfl hns
    | String si =>
      have hf : 0 < f := by simp [Constant.rank] at hr; omega
      cases hg : listGet pool si with
      | none => simp [validateAux, hg]
      | some c' =>
        cases c' <;> simp only [validateAux, hg] <;> try simp
        case UTF8String s =>
          rcases hv : validateAux f (.UTF8String s) pool with ⟨r, l⟩
          have hns : r ≠ .spin := by
            have := ih (.UTF8String s) pool (by simpa [Constant.rank] using hf)
            rw [hv] at this; exact this
          simp only [hv]
          cases r with
          | ok u => simp
          | err e => simp
          | crash => simp
          | spin => exact absurd rfl hns
    | MethodType di =>
      have hf : 0 < f := by simp [Constant.rank] at hr; omega
      cases hg : listGet pool di with
      | none => simp [validateAux, hg]
      | some c' =>
        cases c' <;> simp only [validateAux, hg] <;> try simp
        case UTF8String s =>
          rcases hv : validateAux f (.UTF8String s) pool with ⟨r, l⟩
          have hns : r ≠ .spin := by
            have := ih (.UTF8String s) pool (by simpa [Constant.rank] using hf)
            rw [hv] at this; exact this
          simp only [hv]
          cases r with
          | ok u => simp
          | err e => simp
          | crash => simp
          | spin => exact absurd rfl hns
    | NameAndType a b =>
      have hf : 0 < f := by simp [Constant.rank] at hr; omega
      cases hg : listGet pool a with
      | none => simp [validateAux, hg]
      | some c' =>
        cases c' <;> simp only [validateAux, hg] <;> try simp
        case UTF8String s =>
          rcases hv : validateAux f (.UTF8String s) pool with ⟨r, l⟩
          have hns : r ≠ .spin := by
            have := ih (.UTF8String s) pool (by simpa [Constant.rank] using hf)
            rw [hv] at this; exact this
          simp only [hv]
          cases r with
          | err e => simp
          | crash => simp
          | spin => exact absurd rfl hns
          | ok u =>
            cases hb : listGet pool b with
            | none => simp
            | some c'' =>
              cases c'' <;> try simp
              case UTF8String t =>
                rcases hv2 : validateAux f (.UTF8String t) pool with ⟨r2, l2⟩
                have hns2 : r2 ≠ .spin := by
                  have := ih (.UTF8String t) pool (by simpa [Constant.rank] using hf)
                  rw [hv2] at this; exact this
                simp only [hv2]
                cases r2 with
                | ok u2 => simp
                | err e2 => simp
                | crash => simp
                | spin => exact absurd rfl hns2
    | Method a b =>
      have hf : 1 < f := by simp [Constant.rank] at hr; omega
      cases hg : listGet pool a with
      | none => simp [validateAux, hg]
      | some c' =>
        cases c' <;> simp only [validateAux, hg] <;> try simp
        case Class n =>
          rcases hv : validateAux f (.Class n) pool with ⟨r, l⟩
          have hns : r ≠ .spin := by
            have := ih (.Class n) pool (by simpa [Constant.rank] using hf)
            rw [hv] at this; exact this
          simp only [hv]
          cases r with
          | err e => simp
          | crash => simp
          | spin => exact absurd rfl hns
          | ok u =>
            cases hb : listGet pool b with
            | none => simp
            | some c'' =>
              cases c'' <;> try simp
              case NameAndType x y =>
                rcases hv2 : validateAux f (.NameAndType x y) pool with ⟨r2, l2⟩
                have hns2 : r2 ≠ .spin := by
                  have := ih (.NameAndType x y) pool (by simpa [Constant.rank] using hf)
                  rw [hv2] at this; exact this
                simp only [hv2]
                cases r2 with
                | ok u2 => simp
                | err e2 => simp
                | crash => simp
                | spin => exact absurd rfl hns2
    | Field a b =>
      have hf : 1 < f := by simp [Constant.rank] at hr; omega
      cases hg : listGet pool a with
      | none => simp [validateAux, hg]
      | some c' =>
        cases c' <;> simp only [validateAux, hg] <;> try simp
        case Class n =>
          rcases hv : validateAux f (.Class n) pool with ⟨r, l⟩
          have hns : r ≠ .spin := by
            have := ih (.Class n) pool (by simpa [Constant.rank] using hf)
            rw [hv] at this; exact this
          simp only [hv]
          cases r with
          | err e => simp
          | crash => simp
          | spin => exact absurd rfl hns
          | ok u =>
            cases hb : listGet pool b with
            | none => simp
            | some c'' =>
              cases c'' <;> try simp
              case NameAndType x y =>
                rcases hv2 : validateAux f (.NameAndType x y) pool with ⟨r2, l2⟩
                have hns2 : r2 ≠ .spin := by
                  have := ih (.NameAndType x y) pool (by simpa [Constant.rank] using hf)
                  rw [hv2] at this; exact this
                simp only [hv2]
                cases r2 with
                | ok u2 => simp
                | err e2 => simp
                | crash => simp
                | spin => exact absurd rfl hns2
    | InterfaceMethod a b =>
      have hf : 1 < f := by simp [Constant.rank] at hr; omega
      cases hg : listGet pool a with
      | none => simp [validateAux, hg]
      | some c' =>
        cases c' <;> simp only [validateAux, hg] <;> try simp
        case Class n =>
          rcases hv : validateAux f (.Class n) pool with ⟨r, l⟩
          have hns : r ≠ .spin := by
            have := ih (.Class n) pool (by simpa [Constant.rank] using hf)
            rw [hv] at this; exact this
          simp only [hv]
          cases r with
          | err e => simp
          | crash => simp
          | spin => exact absurd rfl hns
          | ok u =>
            cases hb : listGet pool b with
            | none => simp
            | some c'' =>
              cases c'' <;> try simp
              case NameAndType x y =>
                rcases hv2 : validateAux f (.NameAndType x y) pool with ⟨r2, l2⟩
                have hns2 : r2 ≠ .spin := by
                  have := ih (.NameAndType x y) pool (by simpa [Constant.rank] using hf)
                  rw [hv2] at this; exact this
                simp only [hv2]
                cases r2 with
                | ok u2 => simp
                | err e2 => simp
                | crash => simp
                | spin => exact absurd rfl hns2
    | InvokeDynamic a b =>
      have hf : 1 < f := by simp [Constant.rank] at hr; omega
      cases hg : listGet pool b with
      | none => simp [validateAux, hg]
      | some c' =>
        cases c' <;> simp only [validateAux, hg] <;> try simp
        case NameAndType x y =>
          rcases hv : validateAux f (.NameAndType x y) pool with ⟨r, l⟩
          have hns : r ≠ .spin := by
            have := ih (.NameAndType x y) pool (by simpa [Constant.rank] using hf)
            rw [hv] at this; exact this
          simp only [hv]
          cases r with
          | ok u => simp
          | err e => simp
          | crash => simp
          | spin => exact absurd rfl hns
    | MethodHandle k ri =>
      have hf : 2 < f := by simp [Constant.rank] at hr; omega
      cases k with
      | GetField | GetStatic | PutField | PutStatic =>
        cases hg : listGet pool ri with
        | none => simp [validateAux, hg]
        | some c' =>
          cases c' <;> simp only [validateAux, hg] <;> try simp
          case Field x y =>
            rcases hv : validateAux f (.Field x y) pool with ⟨r, l⟩
            have hns : r ≠ .spin := by
              have := ih (.Field x y) pool (by simpa [Constant.rank] using hf)
              rw [hv] at this; exact this
            simp only [hv]
            cases r with
            | ok u => simp
            | err e => simp
            | crash => simp
            | spin => exact absurd rfl hns
      | InvokeVirtual | InvokeStatic | InvokeSpecial =>
        cases hg : listGet pool ri with
        | none => simp [validateAux, hg]
        | some c' =>
          cases c' <;> simp only [validateAux, hg] <;> try simp
          case Method x y =>
            rcases hv : validateAux f (.Method x y) pool with ⟨r, l⟩
            have hns : r ≠ .spin := by
              have := ih (.Method x y) pool (by simpa [Constant.rank] using hf)
              rw [hv] at this; exact this
            simp only [hv]
            cases r with
            | ok u => simp
            | err e => simp
            | crash => simp
            | spin => exact absurd rfl hns
      | InvokeInterface =>
        cases hg : listGet pool ri with
        | none => simp [validateAux, hg]
        | some c' =>
          cases c' <;> simp only [validateAux, hg] <;> try simp
          case InterfaceMethod x y =>
            rcases hv : validateAux f (.InterfaceMethod x y) pool with ⟨r, l⟩
            have hns : r ≠ .spin := by
              have := ih (.InterfaceMethod x y) pool (by simpa [Constant.rank] using hf)
              rw [hv] at this; exact this
            simp only [hv]
            cases r with
            | ok u => simp
            | err e => simp
            | crash => simp
            | spin => exact absurd rfl hns
      | NewInvokeSpecial =>
        cases hg : listGet pool ri with
        | none => simp [validateAux, hg]
        | some c' =>
          cases c' <;> simp only [validateAux, hg] <;> try simp
          case Method x y =>
            rcases hv : validateAux f (.Method x y) pool with ⟨r, l⟩
            have hns : r ≠ .spin := by
              have := ih (.Method x y) pool (by simpa [Constant.rank] using hf)
              rw [hv] at this; exact this
            simp only [hv]
            cases r with
            | err e => simp
            | crash => simp
            | spin => exact absurd rfl hns
            | ok u =>
              cases hb : listGet pool y with
              | none => simp
              | some c2 =>
                cases c2 <;> try simp
                case NameAndType p q =>
                  cases hx : listGet pool p with
                  | none => simp
                  | some c3 =>
                    cases c3 <;> try simp
                    case UTF8String nm => split <;> simp

/-- `validate_constant` never exhausts its fuel: the recursion of the
source is depth-bounded by the variant rank, on every pool, including
self- or mutually-referencing ones. -/
theorem validateConstant_no_spin (c : Constant) (pool : List Constant) :
    (validateConstant c pool).1 ≠ .spin :=
  validateAux_no_spin (c.rank + 1) c pool (Nat.lt_succ_self _)

theorem poolOk_mem {pool : List Constant} {c : Constant}
    (hp : poolOk pool = true) (hm : c ∈ pool) : c.idxOk pool.length = true := by
  simp only [poolOk, List.all_eq_true] at hp
  exact hp c hm

theorem listGet_ne_none {α : Type} {l : List α} {i : Nat}
    (h : i < l.length) : listGet l i ≠ none := by
  rcases listGet_of_lt h with ⟨x, hx⟩
  simp [hx]

theorem validateAux_no_crash :
    ∀ (f : Nat) (c : Constant) (pool : List Constant),
      poolOk pool = true → c.idxOk pool.length = true → c.rank < f →
      (validateAux f c pool).1 ≠ .crash := by
  intro f
  induction f with
  | zero => intro c pool _ _ h; exact absurd h (Nat.not_lt_zero _)
  | succ f ih =>
    intro c pool hp hc hr
    cases c with
    | Integer v => simp [validateAux]
    | Float v => simp [validateAux]
    | Long v => simp [validateAux]
    | Double v => simp [validateAux]
    | UTF8String s => simp [validateAux]
    | Class ni =>
      simp only [Constant.idxOk, decide_eq_true_eq] at hc
      have hf : 0 < f := by simp [Constant.rank] at hr; omega
      cases hg : listGet pool ni with
      | none => exact absurd hg (listGet_ne_none hc)
      | some c' =>
        have hc' := poolOk_mem hp (listGet_mem hg)
        cases c' <;> simp only [validateAux, hg] <;> try simp
        case UTF8String s =>
          rcases hv : validateAux f (.UTF8String s) pool with ⟨r, l⟩
          have hnc : r ≠ .crash := by
            have := ih (.UTF8String s) pool hp (by simp [Constant.idxOk])
              (by simpa [Constant.rank] using hf)
            rw [hv] at this; exact this
          simp only [hv]
          cases r with
          | ok u => simp
          | err e => simp
          | spin => simp
          | crash => exact absurd rfl hnc
    | String si =>
      simp only [Constant.idxOk, decide_eq_true_eq] at hc
      have hf : 0 < f := by simp [Constant.rank] at hr; omega
      cases hg : listGet pool si with
      | none => exact absurd hg (listGet_ne_none hc)
      | some c' =>
        cases c' <;> simp only [validateAux, hg] <;> try simp
        case UTF8String s =>
          rcases hv : validateAux f (.UTF8String s) pool with ⟨r, l⟩
          have hnc : r ≠ .crash := by
            have := ih (.UTF8String s) pool hp (by simp [Constant.idxOk])
              (by simpa [Constant.rank] using hf)
            rw [hv] at this; exact this
          simp only [hv]
          cases r with
          | ok u => simp
          | err e => simp
          | spin => simp
          | crash => exact absurd rfl hnc
    | MethodType di =>
      simp only [Constant.idxOk, decide_eq_true_eq] at hc
      have hf : 0 < f := by simp [Constant.rank] at hr; omega
      cases hg : listGet pool di with
      | none => exact absurd hg (listGet_ne_none hc)
      | some c' =>
        cases c' <;> simp only [validateAux, hg] <;> try simp
        case UTF8String s =>
          rcases hv : validateAux f (.UTF8String s) pool with ⟨r, l⟩
          have hnc : r ≠ .crash := by
            have := ih (.UTF8String s) pool hp (by simp [Constant.idxOk])
              (by simpa [Constant.rank] using hf)
            rw [hv] at this; exact this
          simp only [hv]
          cases r with
          | ok u => simp
          | err e => simp
          | spin => simp
          | crash => exact absurd rfl hnc
    | NameAndType a b =>
      simp only [Constant.idxOk, Bool.and_eq_true, decide_eq_true_eq] at hc
      have hf : 0 < f := by simp [Constant.rank] at hr; omega
      cases hg : listGet pool a with
      | none => exact absurd hg (listGet_ne_none hc.1)
      | some c' =>
        cases c' <;> simp only [validateAux, hg] <;> try simp
        case UTF8String s =>
          rcases hv : validateAux f (.UTF8String s) pool with ⟨r, l⟩
          have hnc : r ≠ .crash := by
            have := ih (.UTF8String s) pool hp (by simp [Constant.idxOk])
              (by simpa [Constant.rank] using hf)
            rw [hv] at this; exact this
          simp only [hv]
          cases r with
          | err e => simp
          | spin => simp
          | crash => exact absurd rfl hnc
          | ok u =>
            cases hb : listGet pool b with
            | none => exact absurd hb (listGet_ne_none hc.2)
            | some c'' =>
              cases c'' <;> try simp
              case UTF8String t =>
                rcases hv2 : validateAux f (.UTF8String t) pool with ⟨r2, l2⟩
                have hnc2 : r2 ≠ .crash := by
                  have := ih (.UTF8String t) pool hp (by simp [Constant.idxOk])
                    (by simpa [Constant.rank] using hf)
                  rw [hv2] at this; exact this
                simp only [hv2]
                cases r2 with
                | ok u2 => simp
                | err e2 => simp
                | spin => simp
                | crash => exact absurd rfl hnc2
    | Method a b =>
      simp only [Constant.idxOk, Bool.and_eq_true, decide_eq_true_eq] at hc
      have hf : 1 < f := by simp [Constant.rank] at hr; omega
      cases hg : listGet pool a with
      | none => exact absurd hg (listGet_ne_none hc.1)
      | some c' =>
        have hc' := poolOk_mem hp (listGet_mem hg)
        cases c' <;> simp only [validateAux, hg] <;> try simp
        case Class n =>
          rcases hv : validateAux f (.Class n) pool with ⟨r, l⟩
          have hnc : r ≠ .crash := by
            have := ih (.Class n) pool hp hc' (by simpa [Constant.rank] using hf)
            rw [hv] at this; exact this
          simp only [hv]
          cases r with
          | err e => simp
          | spin => simp
          | crash => exact absurd rfl hnc
          | ok u =>
            cases hb : listGet pool b with
            | none => exact absurd hb (listGet_ne_none hc.2)
            | some c'' =>
              have hc'' := poolOk_mem hp (listGet_mem hb)
              cases c'' <;> try simp
              case NameAndType x y =>
                rcases hv2 : validateAux f (.NameAndType x y) pool with ⟨r2, l2⟩
                have hnc2 : r2 ≠ .crash := by
                  have := ih (.NameAndType x y) pool hp hc''
                    (by simpa [Constant.rank] using hf)
                  rw [hv2] at this; exact this
                simp only [hv2]
                cases r2 with
                | ok u2 => simp
                | err e2 => simp
                | spin => simp
                | crash => exact absurd rfl hnc2
    | Field a b =>
      simp only [Constant.idxOk, Bool.and_eq_true, decide_eq_true_eq] at hc
      have hf : 1 < f := by simp [Constant.rank] at hr; omega
      cases hg : listGet pool a with
      | none => exact absurd hg (listGet_ne_none hc.1)
      | some c' =>
        have hc' := poolOk_mem hp (listGet_mem hg)
        cases c' <;> simp only [validateAux, hg] <;> try simp
        case Class n =>
          rcases hv : validateAux f (.Class n) pool with ⟨r, l⟩
          have hnc : r ≠ .crash := by
            have := ih (.Class n) pool hp hc' (by simpa [Constant.rank] using hf)
            rw [hv] at this; exact this
          simp only [hv]
          cases r with
          | err e => simp
          | spin => simp
          | crash => exact absurd rfl hnc
          | ok u =>
            cases hb : listGet pool b with
            | none => exact absurd hb (listGet_ne_none hc.2)
            | some c'' =>
              have hc'' := poolOk_mem hp (listGet_mem hb)
              cases c'' <;> try simp
              case NameAndType x y =>
                rcases hv2 : validateAux f (.NameAndType x y) pool with ⟨r2, l2⟩
                have hnc2 : r2 ≠ .crash := by
                  have := ih (.NameAndType x y) pool hp hc''
                    (by simpa [Constant.rank] using hf)
                  rw [hv2] at this; exact this
                simp only [hv2]
                cases r2 with
                | ok u2 => simp
                | err e2 => simp
                | spin => simp
                | crash => exact absurd rfl hnc2
    | InterfaceMethod a b =>
      simp only [Constant.idxOk, Bool.and_eq_true, decide_eq_true_eq] at hc
      have hf : 1 < f := by simp [Constant.rank] at hr; omega
      cases hg : listGet pool a with
      | none => exact absurd hg (listGet_ne_none hc.1)
      | some c' =>
        have hc' := poolOk_mem hp (listGet_mem hg)
        cases c' <;> simp only [validateAux, hg] <;> try simp
        case Class n =>
          rcases hv : validateAux f (.Class n) pool with ⟨r, l⟩
          have hnc : r ≠ .crash := by
            have := ih (.Class n) pool hp hc' (by simpa [Constant.rank] using hf)
            rw [hv] at this; exact this
          simp only [hv]
          cases r with
          | err e => simp
          | spin => simp
          | crash => exact absurd rfl hnc
          | ok u =>
            cases hb : listGet pool b with
            | none => exact absurd hb (listGet_ne_none hc.2)
            | some c'' =>
              have hc'' := poolOk_mem hp (listGet_mem hb)
              cases c'' <;> try simp
              case NameAndType x y =>
                rcases hv2 : validateAux f (.NameAndType x y) pool with ⟨r2, l2⟩
                have hnc2 : r2 ≠ .crash := by
                  have := ih (.NameAndType x y) pool hp hc''
                    (by simpa [Constant.rank] using hf)
                  rw [hv2] at this; exact this
                simp only [hv2]
                cases r2 with
                | ok u2 => simp
                | err e2 => simp
                | spin => simp
                | crash => exact absurd rfl hnc2
    | InvokeDynamic a b =>
      simp only [Constant.idxOk, decide_eq_true_eq] at hc
      have hf : 1 < f := by simp [Constant.rank] at hr; omega
      cases hg : listGet pool b with
      | none => exact absurd hg (listGet_ne_none hc)
      | some c' =>
        have hc' := poolOk_mem hp (listGet_mem hg)
        cases c' <;> simp only [validateAux, hg] <;> try simp
        case NameAndType x y =>
          rcases hv : validateAux f (.NameAndType x y) pool with ⟨r, l⟩
          have hnc : r ≠ .crash := by
            have := ih (.NameAndType x y) pool hp hc' (by simpa [Constant.rank] using hf)
            rw [hv] at this; exact this
          simp only [hv]
          cases r with
          | ok u => simp
          | err e => simp
          | spin => simp
          | crash => exact absurd rfl hnc
    | MethodHandle k ri =>
      simp only [Constant.idxOk, decide_eq_true_eq] at hc
      have hf : 2 < f := by simp [Constant.rank] at hr; omega
      cases k with
      | GetField | GetStatic | PutField | PutStatic =>
        cases hg : listGet pool ri with
        | none => exact absurd hg (listGet_ne_none hc)
        | some c' =>
          have hc' := poolOk_mem hp (listGet_mem hg)
          cases c' <;> simp only [validateAux, hg] <;> try simp
          case Field x y =>
            rcases hv : validateAux f (.Field x y) pool with ⟨r, l⟩
            have hnc : r ≠ .crash := by
              have := ih (.Field x y) pool hp hc' (by simpa [Constant.rank] using hf)
              rw [hv] at this; exact this
            simp only [hv]
            cases r with
            | ok u => simp
            | err e => simp
            | spin => simp
            | crash => exact absurd rfl hnc
      | InvokeVirtual | InvokeStatic | InvokeSpecial =>
        cases hg : listGet pool ri with
        | none => exact absurd hg (listGet_ne_none hc)
        | some c' =>
          have hc' := poolOk_mem hp (listGet_mem hg)
          cases c' <;> simp only [validateAux, hg] <;> try simp
          case Method x y =>
            rcases hv : validateAux f (.Method x y) pool with ⟨r, l⟩
            have hnc : r ≠ .crash := by
              have := ih (.Method x y) pool hp hc' (by simpa [Constant.rank] using hf)
              rw [hv] at this; exact this
            simp only [hv]
            cases r with
            | ok u => simp
            | err e => simp
            | spin => simp
            | crash => exact absurd rfl hnc
      | InvokeInterface =>
        cases hg : listGet pool ri with
        | none => exact absurd hg (listGet_ne_none hc)
        | some c' =>
          have hc' := poolOk_mem hp (listGet_mem hg)
          cases c' <;> simp only [validateAux, hg] <;> try simp
          case InterfaceMethod x y =>
            rcases hv : validateAux f (.InterfaceMethod x y) pool with ⟨r, l⟩
            have hnc : r ≠ .crash := by
              have := ih (.InterfaceMethod x y) pool hp hc'
                (by simpa [Constant.rank] using hf)
              rw [hv] at this; exact this
            simp only [hv]
            cases r with
            | ok u => simp
            | err e => simp
            | spin => simp
            | crash => exact absurd rfl hnc
      | NewInvokeSpecial =>
        cases hg : listGet pool ri with
        | none => exact absurd hg (listGet_ne_none hc)
        | some c' =>
          have hc' := poolOk_mem hp (listGet_mem hg)
          cases c' <;> simp only [validateAux, hg] <;> try simp
          case Method x y =>
            rcases hv : validateAux f (.Method x y) pool with ⟨r, l⟩
            have hnc : r ≠ .crash := by
              have := ih (.Method x y) pool hp hc' (by simpa [Constant.rank] using hf)
              rw [hv] at this; exact this
            simp only [hv]
            cases r with
            | err e => simp
            | spin => simp
            | crash => exact absurd rfl hnc
            | ok u =>
              have hok : (validateAux f (.Method x y) pool).1 = .ok () := by rw [hv]
              rcases method_ok_inv hok with ⟨p, q, hcy, nm, hcp⟩
              simp only [hcy, hcp]
              split <;> simp

/-- When every pool-reference index field of every entry is within the
pool, `validate_constant` cannot panic. -/
theorem validateConstant_no_crash {c : Constant} {pool : List Constant}
    (hp : poolOk pool = true) (hc : c.idxOk pool.length = true) :
    (validateConstant c pool).1 ≠ .crash :=
  validateAux_no_crash (c.rank + 1) c pool hp hc (Nat.lt_succ_self _)

theorem validatePoolGo_no_spin (entries pool : List Constant) :
    (validatePoolGo entries pool).1 ≠ .spin := by
  induction entries with
  | nil => simp [validatePoolGo]
  | cons c rest ih =>
    rcases hv : validateConstant c pool with ⟨r, l⟩
    have hns : r ≠ .spin := by
      have := validateConstant_no_spin c pool
      rw [hv] at this; exact this
    simp only [validatePoolGo, hv]
    cases r with
    | ok u =>
      rcases hg : validatePoolGo rest pool with ⟨r2, l2⟩
      have : r2 ≠ .spin := by rw [hg] at ih; exact ih
      simp only [hg]
      exact this
    | err e => simp
    | crash => simp
    | spin => exact absurd rfl hns

theorem validatePoolGo_no_crash {entries pool : List Constant}
    (hp : poolOk pool = true)
    (he : ∀ c ∈ entries, c.idxOk pool.length = true) :
    (validatePoolGo entries pool).1 ≠ .crash := by
  induction entries with
  | nil => simp [validatePoolGo]
  | cons c rest ih =>
    rcases hv : validateConstant c pool with ⟨r, l⟩
    have hnc : r ≠ .crash := by
      have := validateConstant_no_crash hp (he c (List.mem_cons_self c rest))
      rw [hv] at this; exact this
    simp only [validatePoolGo, hv]
    cases r with
    | ok u =>
      rcases hg : validatePoolGo rest pool with ⟨r2, l2⟩
      have : r2 ≠ .crash := by
        have := ih (fun c' hc' => he c' (List.mem_cons_of_mem c hc'))
        rw [hg] at this; exact this
      simp only [hg]
      exact this
    | err e => simp
    | spin => simp
    | crash => exact absurd rfl hnc

theorem validatePoolGo_ok_all {entries pool : List Constant}
    (h : (validatePoolGo entries pool).1 = .ok ()) :
    ∀ c ∈ entries, (validateConstant c pool).1 = .ok () := by
  induction entries with
  | nil => simp
  | cons c rest ih =>
    rcases hv : validateConstant c pool with ⟨r, l⟩
    simp only [validatePoolGo, hv] at h
    cases r with
    | ok u =>
      rcases hg : validatePoolGo rest pool with ⟨r2, l2⟩
      simp only [hg] at h
      intro c' hc'
      rcases List.mem_cons.mp hc' with rfl | hmem
      · rw [hv]
      · exact ih (by rw [hg]; exact h) c' hmem
    | err e => exact absurd h (by simp)
    | crash => exact absurd h (by simp)
    | spin => exact absurd h (by simp)

theorem validatePoolGo_first_err {pool : List Constant} :
    ∀ (pre : List Constant) (c : Constant) (post : List Constant)
      (e : ConstantPoolValidationError),
      (∀ c' ∈ pre, (validateConstant c' pool).1 = .ok ()) →
      (validateConstant c pool).1 = .err e →
      (validatePoolGo (pre ++ c :: post) pool).1 =
        .err (.ConstantPoolValidationError e) := by
  intro pre
  induction pre with
  | nil =>
    intro c post e _ hce
    rcases hv : validateConstant c pool with ⟨r, l⟩
    rw [hv] at hce
    simp only at hce
    simp [validatePoolGo, hv, hce]
  | cons a t ih =>
    intro c post e hpre hce
    have ha := hpre a (List.mem_cons_self a t)
    rcases hv : validateConstant a pool with ⟨r, l⟩
    rw [hv] at ha
    simp only at ha
    simp only [List.cons_append, validatePoolGo, hv, ha]
    rcases hg : validatePoolGo (t ++ c :: post) pool with ⟨r2, l2⟩
    have h2 := ih c post e (fun c' hc' => hpre c' (List.mem_cons_of_mem a hc')) hce
    rw [hg] at h2
    simp only at h2
    simp [hg, h2]

/-- C1 (counterexample): the claim says `validate_constant_pool` never
panics even when index fields are out of range; but on the one-entry pool
`[Class {name_index: 5}]` the lookup `pool[5]` is out of bounds and the
run panics (Rust slice indexing), instead of returning `Ok` or a typed
validation error. -/
theorem c1_out_of_range_crash :
    (validateConstantPool [Constant.Class 5]).1 = .crash := by decide

/-- C1 (amended): `validate_constant_pool` always terminates — the
recursion depth is bounded by the variant rank, which strictly decreases
at every recursive call, even for entries that reference themselves
directly or transitively (`.1 ≠ .spin` holds for every pool); and whenever
every pool-reference index field of every entry is within the pool length,
it returns `Ok` or a typed validation error (no panic). -/
theorem c1_total_on_in_range_pools (pool : List Constant) :
    (validateConstantPool pool).1 ≠ .spin ∧
      (poolOk pool = true →
        (validateConstantPool pool).1 = .ok () ∨
          ∃ e, (validateConstantPool pool).1 = .err e) := by
  constructor
  · exact validatePoolGo_no_spin pool pool
  · intro hp
    have hnc : (validateConstantPool pool).1 ≠ .crash := by
      refine validatePoolGo_no_crash hp ?_
      intro c hm
      exact poolOk_mem hp hm
    have hns : (validateConstantPool pool).1 ≠ .spin :=
      validatePoolGo_no_spin pool pool
    rcases h : (validateConstantPool pool).1 with u | e | _ | _
    · left; cases u; rfl
    · right; exact ⟨e, rfl⟩
    · exact absurd h hnc
    · exact absurd h hns

/-- C1 (witness): the amended theorem applied to the concrete in-range
pool `[Class 1, UTF8String "A"]`. -/
theorem c1_total_on_in_range_pools_witness :
    (validateConstantPool [Constant.Class 1, Constant.UTF8String [65]]).1 ≠ .spin ∧
      ((validateConstantPool [Constant.Class 1, Constant.UTF8String [65]]).1 = .ok () ∨
        ∃ e, (validateConstantPool [Constant.Class 1, Constant.UTF8String [65]]).1 =
          .err e) :=
  ⟨(c1_total_on_in_range_pools [Constant.Class 1, Constant.UTF8String [65]]).1,
    (c1_total_on_in_range_pools [Constant.Class 1, Constant.UTF8String [65]]).2
      (by decide)⟩

/-- C2: on a tag byte outside {1,3,4,5,6,7,8,9,10,11,12,15,16,18} the
source's `_ => todo!()` arm panics; no `UnrecognizedConstantTag` error
exists anywhere in the code, contradicting the claimed typed hard
failure. -/
theorem c2_unrecognized_tag_is_todo (rest : List Nat) :
    parseConstant (2 :: rest) = .crash ∧
      parseConstant (0 :: rest) = .crash ∧
      parseConstant (13 :: rest) = .crash ∧
      parseConstant (14 :: rest) = .crash ∧
      parseConstant (17 :: rest) = .crash ∧
      parseConstant (19 :: rest) = .crash :=
  ⟨rfl, rfl, rfl, rfl, rfl, rfl⟩

/-- C3: a class access-flags word with a bit outside the recognized
class-flag vocabulary (here `0x8000`) makes the exact-match decode return
no value, and `Class::from_file` `.unwrap()`s it: the parse panics instead
of failing with a typed `InvalidAccessFlags` error (no such class-level
error variant exists in `ParseClassError`).  The byte stream is a valid
magic, version 0.63, an empty (count = 1) pool, then flags `0x8000`. -/
theorem c3_bad_class_flags_crash :
    ClassAccessFlags.from_bits 32768 = none ∧
      fromFile [202, 254, 186, 190, 0, 0, 0, 63, 0, 1, 128, 0] = .crash := by
  constructor
  · decide
  · decide

/-- C7: a raw in-pool index field read as 0 (tags 7 Class, 12 NameAndType,
15 MethodHandle shown) is not rejected: the `u16` subtract-one wraps to
65535 and decoding succeeds; likewise `sub1 0 = 65535` is the pool-count
normalization applied by `Class::from_file` to a zero
`constant_pool_count`. -/
theorem c7_zero_index_wraps (rest : List Nat) :
    parseConstant (7 :: 0 :: 0 :: rest) = .ok (.Class 65535, rest) ∧
      parseConstant (12 :: 0 :: 0 :: 0 :: 0 :: rest) =
        .ok (.NameAndType 65535 65535, rest) ∧
      parseConstant (15 :: 4 :: 0 :: 0 :: rest) =
        .ok (.MethodHandle .PutStatic 65535, rest) ∧
      sub1 0 = 65535 :=
  ⟨rfl, rfl, rfl, rfl⟩

/-- C8: the pool `[UTF8String "A"]` passes validation, yet interface
resolution panics: an out-of-range raw interface class index (5) hits
out-of-bounds slice indexing, and an in-range index (0) designating a
non-`Class` entry hits an `unreachable!()` arm; a whole-file parse built
on such a validated pool panics as well, instead of returning a typed
error. -/
theorem c8_get_interfaces_panics_after_validation :
    (validateConstantPool [Constant.UTF8String [65]]).1 = .ok () ∧
      getInterfaces [0, 1, 0, 5] [Constant.UTF8String [65]] = .crash ∧
      getInterfaces [0, 1, 0, 0] [Constant.UTF8String [65]] = .crash ∧
      fromFile [202, 254, 186, 190, 0, 0, 0, 63, 0, 2, 1, 0, 1, 65,
        0, 1, 0, 0, 0, 0, 0, 1, 0, 0] = .crash := by
  refine ⟨by decide, by decide, by decide, by decide⟩

/-- C10 (counterexample): the claim says validation has no observable
effect besides its outcome; but validating the pool
`[InvokeDynamic 0 1, NameAndType 2 2, UTF8String "x"]` succeeds while
writing the FIXME diagnostic line to stderr — the observable stderr state
changes. -/
theorem c10_validation_writes_stderr :
    (runValidate ⟨[Constant.InvokeDynamic 0 1, Constant.NameAndType 2 2,
        Constant.UTF8String [120]], []⟩).1 = .ok () ∧
      ((runValidate ⟨[Constant.InvokeDynamic 0 1, Constant.NameAndType 2 2,
        Constant.UTF8String [120]], []⟩).2).output = [fixmeMsg] := by
  constructor
  · decide
  · decide

/-- C10 (amended): running `validate_constant_pool` twice on the same pool
yields the same success/failure outcome, and the pool itself is never
mutated; the only observable effect is the FIXME diagnostic appended to
stderr for valid `InvokeDynamic` entries (see the counterexample). -/
theorem c10_idempotent_outcome_pool_unchanged (st : VMState) :
    (runValidate ((runValidate st).2)).1 = (runValidate st).1 ∧
      ((runValidate st).2).pool = st.pool := by
  rcases h : validateConstantPool st.pool with ⟨r, l⟩
  constructor
  · simp [runValidate, h]
  · simp [runValidate, h]

theorem readU8_short {s : List Nat} (h : s.length < 1) :
    readU8 s = .err .IoError := by
  cases s with
  | nil => rfl
  | cons a t => simp at h

theorem readU16_short {s : List Nat} (h : s.length < 2) :
    readU16 s = .err .IoError := by
  match s with
  | [] => rfl
  | [a] => rfl
  | a :: b :: t => simp at h; omega

theorem readU32_short {s : List Nat} (h : s.length < 4) :
    readU32 s = .err .IoError := by
  match s with
  | [] => rfl
  | [a] => rfl
  | [a, b] => rfl
  | [a, b, c] => rfl
  | a :: b :: c :: d :: t => simp at h; omega

theorem readNDyn_short {n : Nat} {s : List Nat} (h : s.length < n) :
    readNDyn n s = .err .IoError := by
  unfold readNDyn
  rw [if_neg (by omega)]

/-- C9: every exact-length read on a stream shorter than the declared
length fails with the I/O error and never yields partial or zero-filled
data: the 1/2/4-byte integer readers, the dynamic exact-length byte read,
the 8-byte `Long` assembly of `parse_constant` (tag 5), and a UTF8
constant (tag 1) whose announced payload length exceeds the remaining
stream. -/
theorem c9_truncated_reads_fail_with_io_error :
    (∀ s : List Nat, s.length < 1 → readU8 s = .err .IoError) ∧
      (∀ s : List Nat, s.length < 2 → readU16 s = .err .IoError) ∧
      (∀ s : List Nat, s.length < 4 → readU32 s = .err .IoError) ∧
      (∀ (n : Nat) (s : List Nat), s.length < n → readNDyn n s = .err .IoError) ∧
      (∀ s : List Nat, s.length < 8 → parseConstant (5 :: s) = .err .IoError) ∧
      (∀ (hi lo : Nat) (s : List Nat), s.length < (hi % 256) * 256 + lo % 256 →
        parseConstant (1 :: hi :: lo :: s) = .err .IoError) := by
  refine ⟨fun s h => readU8_short h, fun s h => readU16_short h,
    fun s h => readU32_short h, fun n s h => readNDyn_short h, ?_, ?_⟩
  · intro s h
    match s with
    | [] => rfl
    | [a] => rfl
    | [a, b] => rfl
    | [a, b, c] => rfl
    | a :: b :: c :: d :: t =>
      have ht : t.length < 4 := by simp at h; omega
      have h1 : readU32 (a :: b :: c :: d :: t) =
          .ok ((a % 256) * 2 ^ 24 + (b % 256) * 2 ^ 16 + (c % 256) * 256 + d % 256, t) := rfl
      show parseConstant (5 :: a :: b :: c :: d :: t) = .err .IoError
      simp only [parseConstant, readU8, h1, readU32_short ht]
  · intro hi lo s h
    simp only [parseConstant, readU8, readU16, readNDyn_short h]

/-- C9 (witness): the truncation theorem at concrete inputs — a UTF8
constant announcing 10 payload bytes over a 3-byte remainder, a `Long`
with only 6 of its 8 bytes, and the bare readers on short streams. -/
theorem c9_truncated_reads_fail_with_io_error_witness :
    readU8 ([] : List Nat) = .err .IoError ∧
      readU16 [7] = .err .IoError ∧
      readU32 [1, 2, 3] = .err .IoError ∧
      readNDyn 10 [65, 66, 67] = .err .IoError ∧
      parseConstant [5, 1, 2, 3, 4, 5, 6] = .err .IoError ∧
      parseConstant [1, 0, 10, 65, 66, 67] = .err .IoError :=
  ⟨c9_truncated_reads_fail_with_io_error.1 [] (by decide),
    c9_truncated_reads_fail_with_io_error.2.1 [7] (by decide),
    c9_truncated_reads_fail_with_io_error.2.2.1 [1, 2, 3] (by decide),
    c9_truncated_reads_fail_with_io_error.2.2.2.1 10 [65, 66, 67] (by decide),
    c9_truncated_reads_fail_with_io_error.2.2.2.2.1 [1, 2, 3, 4, 5, 6] (by decide),
    c9_truncated_reads_fail_with_io_error.2.2.2.2.2 0 10 [65, 66, 67] (by decide)⟩

/-- C4: at decode time every in-pool cross-reference index field (and
`InvokeDynamic.bootstrap_method_attr_index`) is the raw big-endian `u16`
minus one (`sub1`), for every constant variant carrying indices; while
`this_class`, `super_class` and each interface's class index are consumed
exactly as read, with no subtraction (the whole-file conjunct reads
`this_class`/`super_class` bytes `a b c d` unchanged, and the
`get_interfaces` conjunct looks the raw index up directly). -/
theorem c4_indices_are_raw_minus_one (hi lo h2 l2 k i1 i2 a b c d : Nat)
    (rest : List Nat) (rk : MethodReferenceKind) (pool : List Constant)
    (n : Nat) (s' : List Nat)
    (hk : MethodReferenceKind.fromU8 (k % 256) = some rk)
    (hg1 : listGet pool ((i1 % 256) * 256 + i2 % 256) = some (.Class n))
    (hg2 : listGet pool n = some (.UTF8String s')) :
    parseConstant (7 :: hi :: lo :: rest) =
      .ok (.Class (sub1 ((hi % 256) * 256 + lo % 256)), rest) ∧
    parseConstant (8 :: hi :: lo :: rest) =
      .ok (.String (sub1 ((hi % 256) * 256 + lo % 256)), rest) ∧
    parseConstant (9 :: hi :: lo :: h2 :: l2 :: rest) =
      .ok (.Field (sub1 ((hi % 256) * 256 + lo % 256))
        (sub1 ((h2 % 256) * 256 + l2 % 256)), rest) ∧
    parseConstant (10 :: hi :: lo :: h2 :: l2 :: rest) =
      .ok (.Method (sub1 ((hi % 256) * 256 + lo % 256))
        (sub1 ((h2 % 256) * 256 + l2 % 256)), rest) ∧
    parseConstant (11 :: hi :: lo :: h2 :: l2 :: rest) =
      .ok (.InterfaceMethod (sub1 ((hi % 256) * 256 + lo % 256))
        (sub1 ((h2 % 256) * 256 + l2 % 256)), rest) ∧
    parseConstant (12 :: hi :: lo :: h2 :: l2 :: rest) =
      .ok (.NameAndType (sub1 ((hi % 256) * 256 + lo % 256))
        (sub1 ((h2 % 256) * 256 + l2 % 256)), rest) ∧
    parseConstant (16 :: hi :: lo :: rest) =
      .ok (.MethodType (sub1 ((hi % 256) * 256 + lo % 256)), rest) ∧
    parseConstant (18 :: hi :: lo :: h2 :: l2 :: rest) =
      .ok (.InvokeDynamic (sub1 ((hi % 256) * 256 + lo % 256))
        (sub1 ((h2 % 256) * 256 + l2 % 256)), rest) ∧
    parseConstant (15 :: k :: hi :: lo :: rest) =
      .ok (.MethodHandle rk (sub1 ((hi % 256) * 256 + lo % 256)), rest) ∧
    fromFile ([202, 254, 186, 190, 0, 0, 0, 63, 0, 3, 7, 0, 2, 1, 0, 1, 65, 0, 33] ++
        a :: b :: c :: d :: [0, 1, 0, 0, 0, 0, 0, 0, 0, 0]) =
      .ok ⟨⟨0, 63⟩, [.Class 1, .UTF8String [65]], 33,
        (a % 256) * 256 + b % 256, (c % 256) * 256 + d % 256, [[65]], [], [], []⟩ ∧
    getInterfaces (0 :: 1 :: i1 :: i2 :: rest) pool = .ok ([s'], rest) := by
  refine ⟨rfl, rfl, rfl, rfl, rfl, rfl, rfl, rfl, ?_, rfl, ?_⟩
  · simp only [parseConstant, readU8, readU16, hk]
  · have e1 : readU16 (0 :: 1 :: i1 :: i2 :: rest) = .ok (1, i1 :: i2 :: rest) := rfl
    have e2 : readU16 (i1 :: i2 :: rest) =
        .ok ((i1 % 256) * 256 + i2 % 256, rest) := rfl
    simp only [getInterfaces, e1]
    conv_lhs => rw [show (1 : Nat) = 0 + 1 from rfl]
    simp only [getInterfacesGo, e2, hg1, hg2]

/-- C4 (witness): the decode-normalization theorem at concrete bytes —
raw index 5 decodes to 4, raw pair (5, 7) to (4, 6), a MethodHandle of
kind byte 5 (InvokeVirtual) with raw index 5 to index 4, a whole file
whose `this_class`/`super_class` bytes encode 1 and 2 keeps them as 1 and
2, and interface index 0 resolves through pool slot 0 unadjusted. -/
theorem c4_indices_are_raw_minus_one_witness :
    parseConstant [7, 0, 5] = .ok (.Class 4, []) ∧
    parseConstant [8, 0, 5] = .ok (.String 4, []) ∧
    parseConstant [9, 0, 5, 0, 7] = .ok (.Field 4 6, []) ∧
    parseConstant [10, 0, 5, 0, 7] = .ok (.Method 4 6, []) ∧
    parseConstant [11, 0, 5, 0, 7] = .ok (.InterfaceMethod 4 6, []) ∧
    parseConstant [12, 0, 5, 0, 7] = .ok (.NameAndType 4 6, []) ∧
    parseConstant [16, 0, 5] = .ok (.MethodType 4, []) ∧
    parseConstant [18, 0, 5, 0, 7] = .ok (.InvokeDynamic 4 6, []) ∧
    parseConstant [15, 5, 0, 5] = .ok (.MethodHandle .InvokeVirtual 4, []) ∧
    fromFile [202, 254, 186, 190, 0, 0, 0, 63, 0, 3, 7, 0, 2, 1, 0, 1, 65, 0, 33,
        0, 1, 0, 2, 0, 1, 0, 0, 0, 0, 0, 0, 0, 0] =
      .ok ⟨⟨0, 63⟩, [.Class 1, .UTF8String [65]], 33, 1, 2, [[65]], [], [], []⟩ ∧
    getInterfaces [0, 1, 0, 0] [Constant.Class 1, Constant.UTF8String [65]] =
      .ok ([[65]], []) :=
  c4_indices_are_raw_minus_one 0 5 0 7 5 0 0 0 1 0 2 [] .InvokeVirtual
    [Constant.Class 1, Constant.UTF8String [65]] 1 [65] (by decide) (by decide)
    (by decide)

theorem class_ok_inv {f n : Nat} {pool : List Constant}
    (h : (validateAux f (.Class n) pool).1 = .ok ()) :
    ∃ s, listGet pool n = some (.UTF8String s) := by
  cases f with
  | zero => simp [validateAux] at h
  | succ f =>
    cases hg : listGet pool n with
    | none => simp [validateAux, hg] at h
    | some c' =>
      cases c' <;> simp only [validateAux, hg] at h <;> try exact absurd h (by simp)
      case UTF8String s => exact ⟨s, rfl⟩

theorem validateConstant_nis_eq (ri : Nat) (pool : List Constant) :
    validateConstant (.MethodHandle .NewInvokeSpecial ri) pool =
      match listGet pool ri with
      | none => (.crash, [])
      | some (.Method a b) =>
        let (r, l) := validateConstant (.Method a b) pool
        match r with
        | .ok _ =>
          match listGet pool b with
          | none => (.crash, l)
          | some (.NameAndType x _) =>
            match listGet pool x with
            | none => (.crash, l)
            | some (.UTF8String nm) =>
              if nm = initName then (.ok (), l) else (.err .InvalidMethodHandle, l)
            | some _ => (.crash, l)
          | some _ => (.crash, l)
        | .err e => (.err e, l)
        | .crash => (.crash, l)
        | .spin => (.spin, l)
      | some _ => (.err .InvalidMethodHandle, []) := rfl

/-- C6 (counterexample): in this pool the MethodHandle's `reference_index`
resolves to a Method whose name chain resolves to the exact text `<init>`,
yet validation of the entry does not succeed — the Method's own
`class_index` points at an `Integer`, so validation fails (with
`MethodWithInvalidClassIndex`, not even the handle-specific error),
refuting the claimed "succeeds iff the name is `<init>`". -/
theorem c6_init_name_yet_validation_fails :
    listGet [Constant.MethodHandle .NewInvokeSpecial 1, Constant.Method 5 2,
        Constant.NameAndType 3 4, Constant.UTF8String initName,
        Constant.UTF8String [40, 41, 86], Constant.Integer 0] 1 =
      some (.Method 5 2) ∧
    listGet [Constant.MethodHandle .NewInvokeSpecial 1, Constant.Method 5 2,
        Constant.NameAndType 3 4, Constant.UTF8String initName,
        Constant.UTF8String [40, 41, 86], Constant.Integer 0] 2 =
      some (.NameAndType 3 4) ∧
    listGet [Constant.MethodHandle .NewInvokeSpecial 1, Constant.Method 5 2,
        Constant.NameAndType 3 4, Constant.UTF8String initName,
        Constant.UTF8String [40, 41, 86], Constant.Integer 0] 3 =
      some (.UTF8String initName) ∧
    (validateConstant (.MethodHandle .NewInvokeSpecial 1)
        [Constant.MethodHandle .NewInvokeSpecial 1, Constant.Method 5 2,
         Constant.NameAndType 3 4, Constant.UTF8String initName,
         Constant.UTF8String [40, 41, 86], Constant.Integer 0]).1 =
      .err .MethodWithInvalidClassIndex := by
  refine ⟨rfl, rfl, rfl, by decide⟩

/-- C6 (amended): for a `NewInvokeSpecial` MethodHandle whose
`reference_index` resolves to a Method entry that itself validates, the
handle validates successfully iff the method's name — resolved through its
NameAndType's `name_index` to a UTF8String — is exactly the literal
`<init>`; any other text fails with the handle-specific
`InvalidMethodHandle` error.  (The amendment adds the hypothesis that the
referenced Method entry itself validates; without it, a Method with an
invalid own reference fails with that reference's error even when the
name is `<init>`, see the counterexample.) -/
theorem c6_new_invoke_special_init_rule (pool : List Constant)
    (ri ci ni x y : Nat) (s : List Nat)
    (hm : listGet pool ri = some (.Method ci ni))
    (hok : (validateConstant (.Method ci ni) pool).1 = .ok ())
    (hnat : listGet pool ni = some (.NameAndType x y))
    (hnm : listGet pool x = some (.UTF8String s)) :
    ((validateConstant (.MethodHandle .NewInvokeSpecial ri) pool).1 = .ok () ↔
      s = initName) ∧
    (s ≠ initName →
      (validateConstant (.MethodHandle .NewInvokeSpecial ri) pool).1 =
        .err .InvalidMethodHandle) := by
  have hmain : (validateConstant (.MethodHandle .NewInvokeSpecial ri) pool).1 =
      if s = initName then .ok () else .err .InvalidMethodHandle := by
    rw [validateConstant_nis_eq, hm]
    rcases hv : validateConstant (.Method ci ni) pool with ⟨r, l⟩
    have hr : r = .ok () := by rw [hv] at hok; exact hok
    subst hr
    simp only [hv, hnat, hnm]
    by_cases hs : s = initName
    · simp [hs]
    · simp [hs]
  constructor
  · rw [hmain]
    by_cases hs : s = initName
    · simp [hs]
    · simp [hs]
  · intro hs
    rw [hmain, if_neg hs]

/-- C6 (witness): the amended rule applied to a concrete fully valid pool
whose method name is `<init>`: the handle validates, and the
`<init>`-mismatch branch is vacuous. -/
theorem c6_new_invoke_special_init_rule_witness :
    ((validateConstant (.MethodHandle .NewInvokeSpecial 1)
        [Constant.MethodHandle .NewInvokeSpecial 1, Constant.Method 2 3,
         Constant.Class 4, Constant.NameAndType 5 6, Constant.UTF8String [67],
         Constant.UTF8String initName, Constant.UTF8String [40, 41, 86]]).1 =
      .ok () ↔ initName = initName) ∧
    (initName ≠ initName →
      (validateConstant (.MethodHandle .NewInvokeSpecial 1)
        [Constant.MethodHandle .NewInvokeSpecial 1, Constant.Method 2 3,
         Constant.Class 4, Constant.NameAndType 5 6, Constant.UTF8String [67],
         Constant.UTF8String initName, Constant.UTF8String [40, 41, 86]]).1 =
        .err .InvalidMethodHandle) :=
  c6_new_invoke_special_init_rule
    [Constant.MethodHandle .NewInvokeSpecial 1, Constant.Method 2 3,
     Constant.Class 4, Constant.NameAndType 5 6, Constant.UTF8String [67],
     Constant.UTF8String initName, Constant.UTF8String [40, 41, 86]]
    1 2 3 5 6 initName (by decide) (by decide) (by decide) (by decide)

theorem validateConstant_class_eq (ni : Nat) (pool : List Constant) :
    validateConstant (.Class ni) pool =
      match listGet pool ni with
      | none => (.crash, [])
      | some (.UTF8String s) =>
        let (r, l) := validateConstant (.UTF8String s) pool
        match r with
        | .ok _ => (.ok (), l)
        | .err e => (.err e, l)
        | .crash => (.crash, l)
        | .spin => (.spin, l)
      | some _ => (.err .ClassWithInvalidNameIndex, []) := rfl

theorem validateConstant_string_eq (si : Nat) (pool : List Constant) :
    validateConstant (.String si) pool =
      match listGet pool si with
      | none => (.crash, [])
      | some (.UTF8String s) =>
        let (r, l) := validateConstant (.UTF8String s) pool
        match r with
        | .ok _ => (.ok (), l)
        | .err e => (.err e, l)
        | .crash => (.crash, l)
        | .spin => (.spin, l)
      | some _ => (.err .StringWithInvalidUTF8Index, []) := rfl

theorem validateConstant_methodtype_eq (di : Nat) (pool : List Constant) :
    validateConstant (.MethodType di) pool =
      match listGet pool di with
      | none => (.crash, [])
      | some (.UTF8String s) =>
        let (r, l) := validateConstant (.UTF8String s) pool
        match r with
        | .ok _ => (.ok (), l)
        | .err e => (.err e, l)
        | .crash => (.crash, l)
        | .spin => (.spin, l)
      | some _ => (.err .MethodTypeWithInvalidDescriptorIndex, []) := rfl

theorem validateConstant_nat_eq (a b : Nat) (pool : List Constant) :
    validateConstant (.NameAndType a b) pool =
      match listGet pool a with
      | none => (.crash, [])
      | some (.UTF8String s) =>
        let (r, l) := validateConstant (.UTF8String s) pool
        match r with
        | .ok _ =>
          match listGet pool b with
          | none => (.crash, l)
          | some (.UTF8String t) =>
            let (r2, l2) := validateConstant (.UTF8String t) pool
            match r2 with
            | .ok _ => (.ok (), l ++ l2)
            | .err e => (.err e, l ++ l2)
            | .crash => (.crash, l ++ l2)
            | .spin => (.spin, l ++ l2)
          | some _ => (.err .NameAndTypeWithInvalidDescriptorIndex, l)
        | .err e => (.err e, l)
        | .crash => (.crash, l)
        | .spin => (.spin, l)
      | some _ => (.err .NameAndTypeWithInvalidNameIndex, []) := rfl

theorem validateConstant_method_eq (a b : Nat) (pool : List Constant) :
    validateConstant (.Method a b) pool =
      match listGet pool a with
      | none => (.crash, [])
      | some (.Class n) =>
        let (r, l) := validateConstant (.Class n) pool
        match r with
        | .ok _ =>
          match listGet pool b with
          | none => (.crash, l)
          | some (.NameAndType x y) =>
            let (r2, l2) := validateConstant (.NameAndType x y) pool
            match r2 with
            | .ok _ => (.ok (), l ++ l2)
            | .err e => (.err e, l ++ l2)
            | .crash => (.crash, l ++ l2)
            | .spin => (.spin, l ++ l2)
          | some _ => (.err .MethodWithInvalidNameAndTypeIndex, l)
        | .err e => (.err e, l)
        | .crash => (.crash, l)
        | .spin => (.spin, l)
      | some _ => (.err .MethodWithInvalidClassIndex, []) := rfl

theorem validateConstant_field_eq (a b : Nat) (pool : List Constant) :
    validateConstant (.Field a b) pool =
      match listGet pool a with
      | none => (.crash, [])
      | some (.Class n) =>
        let (r, l) := validateConstant (.Class n) pool
        match r with
        | .ok _ =>
          match listGet pool b with
          | none => (.crash, l)
          | some (.NameAndType x y) =>
            let (r2, l2) := validateConstant (.NameAndType x y) pool
            match r2 with
            | .ok _ => (.ok (), l ++ l2)
            | .err e => (.err e, l ++ l2)
            | .crash => (.crash, l ++ l2)
            | .spin => (.spin, l ++ l2)
          | some _ => (.err .FieldWithInvalidNameAndTypeIndex, l)
        | .err e => (.err e, l)
        | .crash => (.crash, l)
        | .spin => (.spin, l)
      | some _ => (.err .FieldWithInvalidClassIndex, []) := rfl

theorem validateConstant_imethod_eq (a b : Nat) (pool : List Constant) :
    validateConstant (.InterfaceMethod a b) pool =
      match listGet pool a with
      | none => (.crash, [])
      | some (.Class n) =>
        let (r, l) := validateConstant (.Class n) pool
        match r with
        | .ok _ =>
          match listGet pool b with
          | none => (.crash, l)
          | some (.NameAndType x y) =>
            let (r2, l2) := validateConstant (.NameAndType x y) pool
            match r2 with
            | .ok _ => (.ok (), l ++ l2)
            | .err e => (.err e, l ++ l2)
            | .crash => (.crash, l ++ l2)
            | .spin => (.spin, l ++ l2)
          | some _ => (.err .InterfaceMethodWithInvalidNameAndTypeIndex, l)
        | .err e => (.err e, l)
        | .crash => (.crash, l)
        | .spin => (.spin, l)
      | some _ => (.err .InterfaceMethodWithInvalidClassIndex, []) := rfl

theorem validateConstant_invokedynamic_eq (a b : Nat) (pool : List Constant) :
    validateConstant (.InvokeDynamic a b) pool =
      match listGet pool b with
      | none => (.crash, [])
      | some (.NameAndType x y) =>
        let (r, l) := validateConstant (.NameAndType x y) pool
        match r with
        | .ok _ => (.ok (), l ++ [fixmeMsg])
        | .err e => (.err e, l)
        | .crash => (.crash, l)
        | .spin => (.spin, l)
      | some _ => (.err .InvokeDynamicWithInvalidNameAndType, []) := rfl

theorem validateConstant_mh_fieldkind_eq (ri : Nat) (pool : List Constant)
    (k : MethodReferenceKind)
    (hk : k = .GetField ∨ k = .GetStatic ∨ k = .PutField ∨ k = .PutStatic) :
    validateConstant (.MethodHandle k ri) pool =
      match listGet pool ri with
      | none => (.crash, [])
      | some (.Field x y) =>
        let (r, l) := validateConstant (.Field x y) pool
        match r with
        | .ok _ => (.ok (), l)
        | .err e => (.err e, l)
        | .crash => (.crash, l)
        | .spin => (.spin, l)
      | some _ => (.err .InvalidMethodHandle, []) := by
  rcases hk with rfl | rfl | rfl | rfl <;> rfl

theorem validateConstant_mh_methodkind_eq (ri : Nat) (pool : List Constant)
    (k : MethodReferenceKind)
    (hk : k = .InvokeVirtual ∨ k = .InvokeStatic ∨ k = .InvokeSpecial) :
    validateConstant (.MethodHandle k ri) pool =
      match listGet pool ri with
      | none => (.crash, [])
      | some (.Method x y) =>
        let (r, l) := validateConstant (.Method x y) pool
        match r with
        | .ok _ => (.ok (), l)
        | .err e => (.err e, l)
        | .crash => (.crash, l)
        | .spin => (.spin, l)
      | some _ => (.err .InvalidMethodHandle, []) := by
  rcases hk with rfl | rfl | rfl <;> rfl

theorem validateConstant_mh_ifacekind_eq (ri : Nat) (pool : List Constant) :
    validateConstant (.MethodHandle .InvokeInterface ri) pool =
      match listGet pool ri with
      | none => (.crash, [])
      | some (.InterfaceMethod x y) =>
        let (r, l) := validateConstant (.InterfaceMethod x y) pool
        match r with
        | .ok _ => (.ok (), l)
        | .err e => (.err e, l)
        | .crash => (.crash, l)
        | .spin => (.spin, l)
      | some _ => (.err .InvalidMethodHandle, []) := rfl

/-- C5 (counterexample): the pool `[Class 2, String 0]` contains an entry
(`String 0`) whose required cross-reference resolves to an entry of the
wrong variant (`Class`, where a `UTF8String` is required), yet
`validate_constant_pool` does not return the matching sub-error
(`StringWithInvalidUTF8Index`) — it panics first on entry 0's out-of-range
`name_index`, so no sub-error is returned at all. -/
theorem c5_panic_preempts_sub_error :
    listGet [Constant.Class 2, Constant.String 0] 0 = some (.Class 2) ∧
      (validateConstantPool [Constant.Class 2, Constant.String 0]).1 = .crash := by
  refine ⟨rfl, by decide⟩

/-- C5 (amended): per entry, a required cross-reference resolving to the
wrong variant yields exactly the matching sub-error of §4.3's table (for
second references, provided the first referent validated); at pool level,
provided every earlier entry validates without panicking, the pool fails
with the first violated entry's sub-error; and validation never reports
partial success — a pool that validates has every entry valid. -/
theorem c5_matching_sub_errors_no_partial_trust :
    (∀ (pool : List Constant) (ni : Nat) (c' : Constant),
      listGet pool ni = some c' → (∀ s, c' ≠ .UTF8String s) →
      (validateConstant (.Class ni) pool).1 = .err .ClassWithInvalidNameIndex) ∧
    (∀ (pool : List Constant) (si : Nat) (c' : Constant),
      listGet pool si = some c' → (∀ s, c' ≠ .UTF8String s) →
      (validateConstant (.String si) pool).1 = .err .StringWithInvalidUTF8Index) ∧
    (∀ (pool : List Constant) (di : Nat) (c' : Constant),
      listGet pool di = some c' → (∀ s, c' ≠ .UTF8String s) →
      (validateConstant (.MethodType di) pool).1 =
        .err .MethodTypeWithInvalidDescriptorIndex) ∧
    (∀ (pool : List Constant) (a b : Nat) (c' : Constant),
      listGet pool a = some c' → (∀ s, c' ≠ .UTF8String s) →
      (validateConstant (.NameAndType a b) pool).1 =
        .err .NameAndTypeWithInvalidNameIndex) ∧
    (∀ (pool : List Constant) (a b : Nat) (s : List Nat) (c' : Constant),
      listGet pool a = some (.UTF8String s) → listGet pool b = some c' →
      (∀ t, c' ≠ .UTF8String t) →
      (validateConstant (.NameAndType a b) pool).1 =
        .err .NameAndTypeWithInvalidDescriptorIndex) ∧
    (∀ (pool : List Constant) (a b : Nat) (c' : Constant),
      listGet pool a = some c' → (∀ n, c' ≠ .Class n) →
      (validateConstant (.Method a b) pool).1 = .err .MethodWithInvalidClassIndex) ∧
    (∀ (pool : List Constant) (a b n : Nat) (c' : Constant),
      listGet pool a = some (.Class n) →
      (validateConstant (.Class n) pool).1 = .ok () →
      listGet pool b = some c' → (∀ x y, c' ≠ .NameAndType x y) →
      (validateConstant (.Method a b) pool).1 =
        .err .MethodWithInvalidNameAndTypeIndex) ∧
    (∀ (pool : List Constant) (a b : Nat) (c' : Constant),
      listGet pool a = some c' → (∀ n, c' ≠ .Class n) →
      (validateConstant (.Field a b) pool).1 = .err .FieldWithInvalidClassIndex) ∧
    (∀ (pool : List Constant) (a b n : Nat) (c' : Constant),
      listGet pool a = some (.Class n) →
      (validateConstant (.Class n) pool).1 = .ok () →
      listGet pool b = some c' → (∀ x y, c' ≠ .NameAndType x y) →
      (validateConstant (.Field a b) pool).1 =
        .err .FieldWithInvalidNameAndTypeIndex) ∧
    (∀ (pool : List Constant) (a b : Nat) (c' : Constant),
      listGet pool a = some c' → (∀ n, c' ≠ .Class n) →
      (validateConstant (.InterfaceMethod a b) pool).1 =
        .err .InterfaceMethodWithInvalidClassIndex) ∧
    (∀ (pool : List Constant) (a b n : Nat) (c' : Constant),
      listGet pool a = some (.Class n) →
      (validateConstant (.Class n) pool).1 = .ok () →
      listGet pool b = some c' → (∀ x y, c' ≠ .NameAndType x y) →
      (validateConstant (.InterfaceMethod a b) pool).1 =
        .err .InterfaceMethodWithInvalidNameAndTypeIndex) ∧
    (∀ (pool : List Constant) (a b : Nat) (c' : Constant),
      listGet pool b = some c' → (∀ x y, c' ≠ .NameAndType x y) →
      (validateConstant (.InvokeDynamic a b) pool).1 =
        .err .InvokeDynamicWithInvalidNameAndType) ∧
    (∀ (pool : List Constant) (ri : Nat) (c' : Constant),
      listGet pool ri = some c' → (∀ x y, c' ≠ .Field x y) →
      ((validateConstant (.MethodHandle .GetField ri) pool).1 =
          .err .InvalidMethodHandle ∧
        (validateConstant (.MethodHandle .GetStatic ri) pool).1 =
          .err .InvalidMethodHandle ∧
        (validateConstant (.MethodHandle .PutField ri) pool).1 =
          .err .InvalidMethodHandle ∧
        (validateConstant (.MethodHandle .PutStatic ri) pool).1 =
          .err .InvalidMethodHandle)) ∧
    (∀ (pool : List Constant) (ri : Nat) (c' : Constant),
      listGet pool ri = some c' → (∀ x y, c' ≠ .Method x y) →
      ((validateConstant (.MethodHandle .InvokeVirtual ri) pool).1 =
          .err .InvalidMethodHandle ∧
        (validateConstant (.MethodHandle .InvokeStatic ri) pool).1 =
          .err .InvalidMethodHandle ∧
        (validateConstant (.MethodHandle .InvokeSpecial ri) pool).1 =
          .err .InvalidMethodHandle ∧
        (validateConstant (.MethodHandle .NewInvokeSpecial ri) pool).1 =
          .err .InvalidMethodHandle)) ∧
    (∀ (pool : List Constant) (ri : Nat) (c' : Constant),
      listGet pool ri = some c' → (∀ x y, c' ≠ .InterfaceMethod x y) →
      (validateConstant (.MethodHandle .InvokeInterface ri) pool).1 =
        .err .InvalidMethodHandle) ∧
    (∀ pool : List Constant, (validateConstantPool pool).1 = .ok () →
      ∀ c ∈ pool, (validateConstant c pool).1 = .ok ()) ∧
    (∀ (pool pre post : List Constant) (c : Constant)
      (e : ConstantPoolValidationError),
      pool = pre ++ c :: post →
      (∀ c' ∈ pre, (validateConstant c' pool).1 = .ok ()) →
      (validateConstant c pool).1 = .err e →
      (validateConstantPool pool).1 = .err (.ConstantPoolValidationError e)) := by
  refine ⟨?_, ?_, ?_, ?_, ?_, ?_, ?_, ?_, ?_, ?_, ?_, ?_, ?_, ?_, ?_, ?_, ?_⟩
  · intro pool ni c' hg hne
    cases c' <;> first
      | exact absurd rfl (hne _)
      | simp [validateConstant_class_eq, hg]
  · intro pool si c' hg hne
    cases c' <;> first
      | exact absurd rfl (hne _)
      | simp [validateConstant_string_eq, hg]
  · intro pool di c' hg hne
    cases c' <;> first
      | exact absurd rfl (hne _)
      | simp [validateConstant_methodtype_eq, hg]
  · intro pool a b c' hg hne
    cases c' <;> first
      | exact absurd rfl (hne _)
      | simp [validateConstant_nat_eq, hg]
  · intro pool a b s c' hga hgb hne
    cases c' <;> first
      | exact absurd rfl (hne _)
      | simp [validateConstant_nat_eq, hga, hgb, validateConstant, validateAux]
  · intro pool a b c' hg hne
    cases c' <;> first
      | exact absurd rfl (hne _)
      | simp [validateConstant_method_eq, hg]
  · intro pool a b n c' hga hok hgb hne
    rcases hv : validateConstant (.Class n) pool with ⟨r, l⟩
    have hr : r = .ok () := by rw [hv] at hok; exact hok
    subst hr
    cases c' <;> first
      | exact absurd rfl (hne _ _)
      | simp [validateConstant_method_eq, hga, hv, hgb]
  · intro pool a b c' hg hne
    cases c' <;> first
      | exact absurd rfl (hne _)
      | simp [validateConstant_field_eq, hg]
  · intro pool a b n c' hga hok hgb hne
    rcases hv : validateConstant (.Class n) pool with ⟨r, l⟩
    have hr : r = .ok () := by rw [hv] at hok; exact hok
    subst hr
    cases c' <;> first
      | exact absurd rfl (hne _ _)
      | simp [validateConstant_field_eq, hga, hv, hgb]
  · intro pool a b c' hg hne
    cases c' <;> first
      | exact absurd rfl (hne _)
      | simp [validateConstant_imethod_eq, hg]
  · intro pool a b n c' hga hok hgb hne
    rcases hv : validateConstant (.Class n) pool with ⟨r, l⟩
    have hr : r = .ok () := by rw [hv] at hok; exact hok
    subst hr
    cases c' <;> first
      | exact absurd rfl (hne _ _)
      | simp [validateConstant_imethod_eq, hga, hv, hgb]
  · intro pool a b c' hg hne
    cases c' <;> first
      | exact absurd rfl (hne _ _)
      | simp [validateConstant_invokedynamic_eq, hg]
  · intro pool ri c' hg hne
    refine ⟨?_, ?_, ?_, ?_⟩ <;>
      rw [validateConstant_mh_fieldkind_eq _ _ _ (by simp), hg] <;>
      (cases c' <;> first
        | exact absurd rfl (hne _ _)
        | rfl)
  · intro pool ri c' hg hne
    refine ⟨?_, ?_, ?_, ?_⟩
    · rw [validateConstant_mh_methodkind_eq _ _ _ (by simp), hg]
      cases c' <;> first
        | exact absurd rfl (hne _ _)
        | rfl
    · rw [validateConstant_mh_methodkind_eq _ _ _ (by simp), hg]
      cases c' <;> first
        | exact absurd rfl (hne _ _)
        | rfl
    · rw [validateConstant_mh_methodkind_eq _ _ _ (by simp), hg]
      cases c' <;> first
        | exact absurd rfl (hne _ _)
        | rfl
    · rw [validateConstant_nis_eq, hg]
      cases c' <;> first
        | exact absurd rfl (hne _ _)
        | rfl
  · intro pool ri c' hg hne
    rw [validateConstant_mh_ifacekind_eq, hg]
    cases c' <;> first
      | exact absurd rfl (hne _ _)
      | rfl
  · intro pool h c hm
    exact validatePoolGo_ok_all h c hm
  · intro pool pre post c e hsplit hpre hce
    subst hsplit
    exact validatePoolGo_first_err pre c post e hpre hce

/-- C5 (witness): the amended theorem at a concrete pool — the Method
entry whose `class_index` resolves to an `Integer` yields exactly
`MethodWithInvalidClassIndex`, and since it is the first entry, the whole
pool is rejected with that sub-error. -/
theorem c5_matching_sub_errors_no_partial_trust_witness :
    (validateConstant (.Method 1 2)
        [Constant.Method 1 2, Constant.Integer 7, Constant.NameAndType 0 0]).1 =
      .err .MethodWithInvalidClassIndex ∧
    (validateConstantPool
        [Constant.Method 1 2, Constant.Integer 7, Constant.NameAndType 0 0]).1 =
      .err (.ConstantPoolValidationError .MethodWithInvalidClassIndex) := by
  have t := c5_matching_sub_errors_no_partial_trust
  refine ⟨t.2.2.2.2.2.1 [Constant.Method 1 2, Constant.Integer 7,
      Constant.NameAndType 0 0] 1 2 (.Integer 7) (by decide) (by simp), ?_⟩
  exact t.2.2.2.2.2.2.2.2.2.2.2.2.2.2.2.2
    [Constant.Method 1 2, Constant.Integer 7, Constant.NameAndType 0 0]
    [] [Constant.Integer 7, Constant.NameAndType 0 0]
    (.Method 1 2) .MethodWithInvalidClassIndex rfl (by simp)
    (t.2.2.2.2.2.1 [Constant.Method 1 2, Constant.Integer 7,
      Constant.NameAndType 0 0] 1 2 (.Integer 7) (by decide) (by simp))

end Jerris


